import Mathlib

/-!
Verification of the nmstate state–reconciliation engine (rust crate) against
its natural-language specification.

The definitions below are a shallow embedding of the Rust sources:

* `src/rust/src/lib/ifaces/inter_ifaces.rs` — the `Interfaces` container,
  `gen_state_for_apply`, `set_up_priority`, `verify`,
  `resolve_unknown_ifaces`, `apply_copy_mac_from`, `gen_ifaces_to_del`,
  `mark_orphan_interface_as_absent`,
  `verify_desire_absent_but_found_in_current`, `remove_unknown_type_port`;
* `src/rust/src/lib/net_state.rs` — `NetworkState::apply`,
  `with_nm_checkpoint`, `with_retry` and the retry constants;
* `src/rust/src/lib/ovsdb/global_conf.rs` and `src/rust/src/lib/ovs.rs` —
  `ovsdb_apply_global_conf`, `OvsDbGlobalConfig::is_purge`,
  `append_purge_action`, `append_mutations`.

Rust `HashMap`s are embedded as association lists (insert replaces in
place, iteration follows list order — `HashMap` iteration order is
unspecified in Rust, so theorems quantify over every list order and
counterexamples pick a concrete one).  Fallible code returns `Except`.
Per-variant interface behaviour (`validate`, `pre_edit_cleanup`, the
per-variant `verify`) is dispatched dynamically in Rust and the variant
implementations are outside the core sources, so those operations are
taken as parameters (`VariantOps`).  Definitions whose Rust body is not
part of the core sources carry a doc comment starting with
`Modelled from the spec:`.
-/

namespace Nmstate

/-- Error kinds of `NmstateError` (spec §7). -/
inductive ErrorKind where
  | invalidArgument
  | verificationError
  | pluginFailure
  | notFound
  | bug
  deriving DecidableEq, Repr

/-- `NmstateError`: an error kind together with a human-readable message. -/
structure NmstateError where
  kind : ErrorKind
  msg : String
  deriving DecidableEq, Repr

/-- Interface type tags (spec §3 lists the variants of the `Interface`
tagged union). -/
inductive InterfaceType where
  | ethernet
  | veth
  | bond
  | linuxBridge
  | ovsBridge
  | ovsInterface
  | vlan
  | vxlan
  | dummy
  | loopback
  | macVlan
  | macVtap
  | vrf
  | infiniBand
  | hsr
  | macSec
  | xfrm
  | ipVlan
  | unknown
  deriving DecidableEq, Repr

/-- Modelled from the spec: `InterfaceType::is_userspace` (body not in the
core sources).  Spec §3: user-space interfaces "are OVS bridges and similar
pure-userspace constructs"; `Interfaces::resolve_unknown_ifaces` and
`Interfaces::get_iface` in `inter_ifaces.rs` require Unknown-typed desired
entries to live in the user-space map, so `Unknown` is user-space too. -/
def InterfaceType.is_userspace : InterfaceType → Bool
  | .ovsBridge => true
  | .unknown => true
  | _ => false

/-- Modelled from the spec: `is_virtual` (per-variant, body not in the core
sources).  Spec §4.7 and invariant 6 oppose "virtual" to "physical"
(real hardware): Ethernet and InfiniBand are physical, an Unknown-typed
record is not treated as virtual. -/
def InterfaceType.is_virtual : InterfaceType → Bool
  | .ethernet => false
  | .infiniBand => false
  | .unknown => false
  | _ => true

/-- Interface lifecycle state (spec §3): `Up`, `Down`, `Absent`, `Ignore`. -/
inductive InterfaceState where
  | up
  | down
  | absent
  | ignore
  deriving DecidableEq, Repr

/-- One address family of the IP configuration (spec §3): enabled flag,
DHCP on/off and static addresses.  `addresses = none` means the desire
supplies no static addresses. -/
structure IpConfig where
  enabled : Bool := false
  dhcp : Option Bool := none
  addresses : Option (List String) := none
  deriving DecidableEq, Repr

/-- `SrIovVfConfig` from `src/rust/src/lib/ifaces/sriov.rs` restricted to
the fields the core consults (`id`, `iface_name`). -/
structure SrIovVfConfig where
  id : Nat := 0
  iface_name : String := ""
  deriving DecidableEq, Repr

/-- `SrIovConfig` from `src/rust/src/lib/ifaces/sriov.rs` restricted to the
fields the core consults (`total_vfs`, `vfs`). -/
structure SrIovConfig where
  total_vfs : Option Nat := none
  vfs : Option (List SrIovVfConfig) := none
  deriving DecidableEq, Repr

/-- `SrIovConfig::sriov_is_enabled` (`sriov.rs`):
`matches!(self.total_vfs, Some(i) if i > 0)`. -/
def SrIovConfig.sriov_is_enabled (c : SrIovConfig) : Bool :=
  match c.total_vfs with
  | some i => i > 0
  | none => false

/-- Modelled from the spec: the `Interface` record (spec §3).  The Rust
`Interface` is a tagged union over per-variant types that are outside the
core sources; the core treats each interface as an opaque record exposing
the capability surface, embedded here as fields.  `extra_conf` stands for
the per-variant configuration payload the core never inspects. -/
structure Interface where
  name : String
  iface_type : InterfaceType
  state : InterfaceState := .up
  controller : Option String := none
  up_priority : Int := 0
  ports : Option (List String) := none
  parent : Option String := none
  mac_address : Option String := none
  permanent_mac_address : Option String := none
  copy_mac_from : Option String := none
  ipv4 : Option IpConfig := none
  ipv6 : Option IpConfig := none
  sr_iov : Option SrIovConfig := none
  extra_conf : Nat := 0
  deriving DecidableEq, Repr

def Interface.is_absent (i : Interface) : Bool := i.state = .absent

def Interface.is_up (i : Interface) : Bool := i.state = .up

def Interface.is_down (i : Interface) : Bool := i.state = .down

def Interface.is_userspace (i : Interface) : Bool := i.iface_type.is_userspace

def Interface.is_virtual (i : Interface) : Bool := i.iface_type.is_virtual

/-- Spec §3: `ports()` is only exposed by controllers. -/
def Interface.is_controller (i : Interface) : Bool := i.ports.isSome

/-- `EthernetInterface::sriov_is_enabled` as used by
`Interfaces::has_sriov_enabled` and `Interfaces::verify` (the guard is
only reached on the `Interface::Ethernet` variant). -/
def Interface.sriov_is_enabled (i : Interface) : Bool :=
  i.iface_type = .ethernet &&
    (match i.sr_iov with
     | some c => c.sriov_is_enabled
     | none => false)

/-- `Interface::set_iface_type` (sets `base_iface.iface_type`). -/
def Interface.set_iface_type (i : Interface) (t : InterfaceType) : Interface :=
  { i with iface_type := t }

/-- Modelled from the spec: `Interface::clone_name_type_only` (body not in
the core sources; the spec calls its result "a name-and-type-only absent
stub", `mark_orphan_interface_as_absent` then marks it absent). -/
def Interface.clone_name_type_only (i : Interface) : Interface :=
  { name := i.name, iface_type := i.iface_type }

/-- Modelled from the spec: `remove_port` capability (spec §3): drop the
named port from the controller's port list. -/
def Interface.remove_port (i : Interface) (port : String) : Interface :=
  { i with ports := i.ports.map (fun ps => ps.filter (fun p => p ≠ port)) }

/-- Association-list lookup for the kernel-interface map
(`HashMap<String, Interface>::get`). -/
def kfind (m : List (String × Interface)) (n : String) : Option Interface :=
  match m with
  | [] => none
  | (k, v) :: rest => if k = n then some v else kfind rest n

/-- Association-list insert-or-replace for the kernel-interface map
(`HashMap::insert`). -/
def kinsert (m : List (String × Interface)) (n : String) (v : Interface) :
    List (String × Interface) :=
  match m with
  | [] => [(n, v)]
  | (k, w) :: rest =>
    if k = n then (n, v) :: rest else (k, w) :: kinsert rest n v

/-- Association-list lookup for the user-space map
(`HashMap<(String, InterfaceType), Interface>::get`). -/
def ufind (m : List ((String × InterfaceType) × Interface))
    (key : String × InterfaceType) : Option Interface :=
  match m with
  | [] => none
  | (k, v) :: rest => if k = key then some v else ufind rest key

/-- Association-list insert-or-replace for the user-space map. -/
def uinsert (m : List ((String × InterfaceType) × Interface))
    (key : String × InterfaceType) (v : Interface) :
    List ((String × InterfaceType) × Interface) :=
  match m with
  | [] => [(key, v)]
  | (k, w) :: rest =>
    if k = key then (key, v) :: rest else (k, w) :: uinsert rest key v

/-- Association-list removal for the user-space map (`HashMap::remove`). -/
def uremove (m : List ((String × InterfaceType) × Interface))
    (key : String × InterfaceType) :
    List ((String × InterfaceType) × Interface) :=
  match m with
  | [] => []
  | (k, v) :: rest =>
    if k = key then rest else (k, v) :: uremove rest key

/-- Stable insertion of `a` into a list sorted by `le` (before the first
element it is `le` to), used to embed the stable `sort_by_key`. -/
def insertLe (le : α → α → Bool) (a : α) : List α → List α
  | [] => [a]
  | b :: bs => if le a b then a :: b :: bs else b :: insertLe le a bs

/-- Stable insertion sort by `le`. -/
def sortByLe (le : α → α → Bool) : List α → List α
  | [] => []
  | x :: xs => insertLe le x (sortByLe le xs)

/-- The `Interfaces` container (`inter_ifaces.rs`): kernel-interface map,
user-space map, and the push-order vector. -/
structure Interfaces where
  kernel_ifaces : List (String × Interface) := []
  user_ifaces : List ((String × InterfaceType) × Interface) := []
  insert_order : List (String × InterfaceType) := []
  deriving DecidableEq, Repr

/-- `Interfaces::new`. -/
def Interfaces.new : Interfaces := {}

/-- `Interfaces::to_vec`: all interfaces, sorted alphabetically by name and
then (stably) by `up_priority`. -/
def Interfaces.to_vec (s : Interfaces) : List Interface :=
  let l := s.kernel_ifaces.map Prod.snd ++ s.user_ifaces.map Prod.snd
  let l := sortByLe (fun a b => decide (a.name ≤ b.name)) l
  sortByLe (fun a b => decide (a.up_priority ≤ b.up_priority)) l

/-- `Interfaces::get_iface`: Unknown type searches the kernel map first and
then scans the user map by name; user-space types use the user map;
kernel types use the kernel map. -/
def Interfaces.get_iface (s : Interfaces) (iface_name : String)
    (iface_type : InterfaceType) : Option Interface :=
  if iface_type = .unknown then
    match kfind s.kernel_ifaces iface_name with
    | some i => some i
    | none =>
      match s.user_ifaces.find? (fun kv => kv.2.name = iface_name) with
      | some kv => some kv.2
      | none => none
  else if iface_type.is_userspace then
    ufind s.user_ifaces (iface_name, iface_type)
  else
    kfind s.kernel_ifaces iface_name

/-- `Interfaces::push`: record the insertion order, then insert into the
user map when the interface is user-space, else into the kernel map. -/
def Interfaces.push (s : Interfaces) (i : Interface) : Interfaces :=
  let s := { s with insert_order := s.insert_order ++ [(i.name, i.iface_type)] }
  if i.is_userspace then
    { s with user_ifaces := uinsert s.user_ifaces (i.name, i.iface_type) i }
  else
    { s with kernel_ifaces := kinsert s.kernel_ifaces i.name i }

/-- `Interfaces::has_sriov_enabled`: some kernel interface is an Ethernet
with SR-IOV enabled. -/
def Interfaces.has_sriov_enabled (s : Interfaces) : Bool :=
  s.kernel_ifaces.any (fun kv => kv.2.sriov_is_enabled)

/-- Replace-in-place update of the kernel map at a name, when present. -/
def kupdate (m : List (String × Interface)) (n : String)
    (f : Interface → Interface) : List (String × Interface) :=
  match m with
  | [] => []
  | (k, v) :: rest =>
    if k = n then (k, f v) :: rest else (k, v) :: kupdate rest n f

/-- Replace-in-place update of the user map at a key, when present. -/
def uupdate (m : List ((String × InterfaceType) × Interface))
    (key : String × InterfaceType) (f : Interface → Interface) :
    List ((String × InterfaceType) × Interface) :=
  match m with
  | [] => []
  | (k, v) :: rest =>
    if k = key then (k, f v) :: rest else (k, v) :: uupdate rest key f

/-- Replace-in-place update of the first user-map record with the given
name, when present (used for Unknown-typed keyed updates, mirroring the
name scan of `Interfaces::get_iface`). -/
def uupdate_by_name (m : List ((String × InterfaceType) × Interface))
    (n : String) (f : Interface → Interface) :
    List ((String × InterfaceType) × Interface) :=
  match m with
  | [] => []
  | (k, v) :: rest =>
    if v.name = n then (k, f v) :: rest else (k, v) :: uupdate_by_name rest n f

/-- Write back through the same lookup path as `Interfaces::get_iface`
(the embedding of updating through `get_iface_mut`-style access). -/
def Interfaces.update_at (s : Interfaces) (key : String × InterfaceType)
    (f : Interface → Interface) : Interfaces :=
  if key.2 = .unknown then
    if (kfind s.kernel_ifaces key.1).isSome then
      { s with kernel_ifaces := kupdate s.kernel_ifaces key.1 f }
    else
      { s with user_ifaces := uupdate_by_name s.user_ifaces key.1 f }
  else if key.2.is_userspace then
    { s with user_ifaces := uupdate s.user_ifaces key f }
  else
    { s with kernel_ifaces := kupdate s.kernel_ifaces key.1 f }

/-! ### Up-priority resolver (claim C2)

`Interfaces::set_up_priority` is in `inter_ifaces.rs`; the per-pass worker
`set_ifaces_up_priority` lives in `inter_ifaces_controller.rs`, which is
not among the core sources, so the pass is modelled from the spec. -/

/-- `INTERFACES_SET_PRIORITY_MAX_RETRY` (`inter_ifaces.rs`). -/
def INTERFACES_SET_PRIORITY_MAX_RETRY : Nat := 4

/-- Modelled from the spec: one step of an up-priority pass (spec §4.2).
"For each interface with at least one port whose priority is known, set
this interface's priority = min(current_priority, min(port_priority) − 1)";
the pass walks in insertion order and reports whether any priority
changed.  Priorities are stored as `u32` by the source; they are embedded
as integers, which the documented large starting constant never drives
below zero within four passes. -/
def up_priority_pass_step (acc : Interfaces × Bool)
    (key : String × InterfaceType) : Interfaces × Bool :=
  let (s, changed) := acc
  match s.get_iface key.1 key.2 with
  | none => (s, changed)
  | some iface =>
    match iface.ports with
    | none => (s, changed)
    | some port_names =>
      match port_names.filterMap
          (fun p => (s.get_iface p .unknown).map Interface.up_priority) with
      | [] => (s, changed)
      | q :: qs =>
        let m := qs.foldl min q
        let newPri := min iface.up_priority (m - 1)
        if newPri = iface.up_priority then (s, changed)
        else
          (s.update_at key (fun i => { i with up_priority := newPri }), true)

/-- Modelled from the spec: a full fixpoint pass
(`set_ifaces_up_priority`), walking the table in insertion order. -/
def up_priority_pass (s : Interfaces) : Interfaces × Bool :=
  s.insert_order.foldl up_priority_pass_step (s, false)

/-- The retry loop of `Interfaces::set_up_priority`, counting down the
remaining passes: a converged pass returns the table, running out of
passes is the `InvalidArgument` failure of `inter_ifaces.rs`. -/
def set_up_priority_go : Nat → Interfaces → Except NmstateError Interfaces
  | 0, _ => .error
      { kind := .invalidArgument,
        msg := "Failed to set up priority: nmstate only support nested interface up to 4 levels. To support more nest level, please order the interfaces in desire state to place controller before its ports" }
  | n + 1, s =>
    let r := up_priority_pass s
    if r.2 then set_up_priority_go n r.1 else .ok r.1

/-- `Interfaces::set_up_priority`: at most
`INTERFACES_SET_PRIORITY_MAX_RETRY` passes. -/
def Interfaces.set_up_priority (s : Interfaces) :
    Except NmstateError Interfaces :=
  set_up_priority_go INTERFACES_SET_PRIORITY_MAX_RETRY s

/-! ### copy-mac-from (`Interfaces::apply_copy_mac_from`) -/

/-- `COPY_MAC_ALLOWED_IFACE_TYPES` (`inter_ifaces.rs`). -/
def COPY_MAC_ALLOWED_IFACE_TYPES : List InterfaceType :=
  [.bond, .linuxBridge, .ovsInterface]

/-- `is_opt_str_empty` (`inter_ifaces.rs`). -/
def is_opt_str_empty : Option String → Bool
  | some s => s.isEmpty
  | none => true

/-- The kernel-map walk of `Interfaces::apply_copy_mac_from`
(`inter_ifaces.rs`): prefer the source's permanent MAC, else its runtime
MAC, else fail `InvalidArgument`; missing source fails `InvalidArgument`. -/
def apply_copy_mac_from_go (cur : Interfaces) :
    List (String × Interface) →
    Except NmstateError (List (String × Interface))
  | [] => .ok []
  | (n, iface) :: rest => do
    let iface' ←
      if ¬ (COPY_MAC_ALLOWED_IFACE_TYPES.contains iface.iface_type) then
        .ok iface
      else
        match iface.copy_mac_from with
        | none => .ok iface
        | some src_iface_name =>
          match kfind cur.kernel_ifaces src_iface_name with
          | some cur_iface =>
            if ¬ is_opt_str_empty cur_iface.permanent_mac_address then
              .ok { iface with
                      mac_address := cur_iface.permanent_mac_address }
            else if ¬ is_opt_str_empty cur_iface.mac_address then
              .ok { iface with mac_address := cur_iface.mac_address }
            else
              .error { kind := .invalidArgument,
                       msg := "Failed to find mac address of interface for copy-mac-from" }
          | none =>
            .error { kind := .invalidArgument,
                     msg := "Failed to find interface for copy-mac-from" }
    let rest' ← apply_copy_mac_from_go cur rest
    .ok ((n, iface') :: rest')

/-- `Interfaces::apply_copy_mac_from`. -/
def Interfaces.apply_copy_mac_from (s cur : Interfaces) :
    Except NmstateError Interfaces := do
  let k ← apply_copy_mac_from_go cur s.kernel_ifaces
  .ok { s with kernel_ifaces := k }

/-! ### Per-variant capability surface -/

/-- The per-variant operations the reconciler dispatches dynamically
(spec §3 capability surface).  Their Rust implementations are per
interface type and outside the core sources, so the reconciler is
embedded parametrically over them; `handle_changed_ports` and
`check_overbook_ports` (from `inter_ifaces_controller.rs`, also outside
the core sources) are carried the same way. -/
structure VariantOps where
  validate : Interface → Except NmstateError Unit
  pre_edit_cleanup : Interface → Except NmstateError Interface
  handle_changed_ports : Interfaces → Interfaces → Except NmstateError Interfaces
  check_overbook_ports : Interfaces → Interfaces → Except NmstateError Unit

/-! ### Classification (`Interfaces::gen_state_for_apply`) -/

/-- `gen_ifaces_to_del` (`inter_ifaces.rs`): one delete entry per current
interface of the same name, with type equal unless the desired type is
Unknown (then each matching type). -/
def gen_ifaces_to_del (del_iface : Interface) (cur_ifaces : Interfaces) :
    List Interface :=
  (cur_ifaces.to_vec.filter
      (fun c => decide (c.name = del_iface.name) &&
        (decide (del_iface.iface_type = .unknown) ||
         decide (del_iface.iface_type = c.iface_type)))).map
    (fun c => { del_iface with iface_type := c.iface_type })

/-- One iteration of the classification loop of
`Interfaces::gen_state_for_apply` (`inter_ifaces.rs`): absent desires feed
the delete set; an up desire is validated; a desire whose name is in the
current kernel map is cloned into change with the current type made
authoritative and `pre_edit_cleanup` applied; otherwise it is cloned into
add (after `pre_edit_cleanup`). -/
def classify_step (ops : VariantOps) (cur : Interfaces)
    (acc : Interfaces × Interfaces × Interfaces) (iface : Interface) :
    Except NmstateError (Interfaces × Interfaces × Interfaces) :=
  let (add_ifaces, chg_ifaces, del_ifaces) := acc
  if iface.is_absent then
    .ok (add_ifaces, chg_ifaces,
      (gen_ifaces_to_del iface cur).foldl Interfaces.push del_ifaces)
  else do
    (if iface.is_up then ops.validate iface else .ok ())
    match kfind cur.kernel_ifaces iface.name with
    | some cur_iface => do
      let chg_iface := iface.set_iface_type cur_iface.iface_type
      let chg_iface ← ops.pre_edit_cleanup chg_iface
      .ok (add_ifaces, chg_ifaces.push chg_iface, del_ifaces)
    | none => do
      let new_iface ← ops.pre_edit_cleanup iface
      .ok (add_ifaces.push new_iface, chg_ifaces, del_ifaces)

/-- The classification loop over `self.to_vec()`. -/
def classify_ifaces (ops : VariantOps) (cur : Interfaces) :
    List Interface → (Interfaces × Interfaces × Interfaces) →
    Except NmstateError (Interfaces × Interfaces × Interfaces)
  | [], acc => .ok acc
  | iface :: rest, acc => do
    let acc' ← classify_step ops cur acc iface
    classify_ifaces ops cur rest acc'

/-- Modelled from the spec: the per-family rule of
`include_current_ip_address_if_dhcp_on_to_off` (`src/rust/src/lib/ip.rs`,
not among the core sources).  Spec §4.5: "If a desired interface disables
DHCP but had DHCP on in current, copy the current dynamic IP addresses
into the change set as static". -/
def copy_dhcp_off_family (des cur : Option IpConfig) : Option IpConfig :=
  match des, cur with
  | some d, some c =>
    if d.dhcp = some false ∧ c.dhcp = some true ∧ d.addresses = none then
      some { d with addresses := c.addresses }
    else some d
  | _, _ => des

/-- Both address families of the DHCP on→off address copy. -/
def Interface.include_dhcp_addrs (iface cur_iface : Interface) : Interface :=
  { iface with
      ipv4 := copy_dhcp_off_family iface.ipv4 cur_iface.ipv4,
      ipv6 := copy_dhcp_off_family iface.ipv6 cur_iface.ipv6 }

/-- Modelled from the spec:
`include_current_ip_address_if_dhcp_on_to_off(&mut chg_ifaces, current)`
(`src/rust/src/lib/ip.rs`, not among the core sources): rewrite every
change-set kernel interface against the current interface of the same
name. -/
def include_current_ip_address_if_dhcp_on_to_off (chg cur : Interfaces) :
    Interfaces :=
  { chg with
      kernel_ifaces := chg.kernel_ifaces.map (fun kv =>
        match kfind cur.kernel_ifaces kv.2.name with
        | some cur_iface => (kv.1, kv.2.include_dhcp_addrs cur_iface)
        | none => kv) }

/-- One iteration of `mark_orphan_interface_as_absent` (`inter_ifaces.rs`):
the parent is consulted from the change entry of the same name when
present, else from current; a current interface whose parent is in delete
and which is not itself in delete gets a name-and-type-only absent stub
appended. -/
def mark_orphan_step (chg_ifaces : Interfaces) (del_ifaces : Interfaces)
    (kv : String × Interface) : Interfaces :=
  let cur_iface := kv.2
  let parent :=
    match kfind chg_ifaces.kernel_ifaces cur_iface.name with
    | some chg_iface => chg_iface.parent
    | none => cur_iface.parent
  match parent with
  | some parent =>
    if (kfind del_ifaces.kernel_ifaces parent).isSome ∧
        (kfind del_ifaces.kernel_ifaces cur_iface.name).isNone then
      del_ifaces.push { cur_iface.clone_name_type_only with state := .absent }
    else del_ifaces
  | none => del_ifaces

/-- `mark_orphan_interface_as_absent` (`inter_ifaces.rs`): a single walk
over `current.kernel_ifaces`, appending to the delete set as it goes. -/
def mark_orphan_interface_as_absent (del_ifaces chg_ifaces current : Interfaces) :
    Interfaces :=
  current.kernel_ifaces.foldl (mark_orphan_step chg_ifaces) del_ifaces

/-- The preprocessing sequence at the head of
`Interfaces::gen_state_for_apply`: copy-mac, changed-port handling,
up-priority assignment, port-overbooking check. -/
def prep_for_apply (ops : VariantOps) (s cur : Interfaces) :
    Except NmstateError Interfaces := do
  let s ← s.apply_copy_mac_from cur
  let s ← ops.handle_changed_ports s cur
  let s ← s.set_up_priority
  ops.check_overbook_ports s cur
  .ok s

/-- `Interfaces::gen_state_for_apply` (`inter_ifaces.rs`): preprocessing,
classification into (add, change, delete), the DHCP on→off address copy on
the change set, then the orphan cascade on the delete set. -/
def Interfaces.gen_state_for_apply (ops : VariantOps) (s cur : Interfaces) :
    Except NmstateError (Interfaces × Interfaces × Interfaces) := do
  let s ← prep_for_apply ops s cur
  let (add_ifaces, chg_ifaces, del_ifaces) ←
    classify_ifaces ops cur s.to_vec (Interfaces.new, Interfaces.new, Interfaces.new)
  let chg_ifaces := include_current_ip_address_if_dhcp_on_to_off chg_ifaces cur
  let del_ifaces := mark_orphan_interface_as_absent del_ifaces chg_ifaces cur
  .ok (add_ifaces, chg_ifaces, del_ifaces)

/-! ### Verification (`Interfaces::verify`, claim C3) -/

/-- Modelled from the spec: `find_unknown_type_port`
(`inter_ifaces_controller.rs`, not among the core sources).  Spec §4.7:
the clone of current is normalised "by dropping unknown-type ports" — the
ports of a controller that are not found in the table or resolve to an
Unknown-typed record. -/
def find_unknown_type_port (iface : Interface) (s : Interfaces) :
    List String :=
  match iface.ports with
  | none => []
  | some port_names =>
    port_names.filter (fun p =>
      match s.get_iface p .unknown with
      | some port_iface => port_iface.iface_type = .unknown
      | none => true)

/-- `Interfaces::remove_unknown_type_port` (`inter_ifaces.rs`): collect the
pending (controller, port) removals over the whole table first, then apply
them through the mutable maps. -/
def Interfaces.remove_unknown_type_port (s : Interfaces) : Interfaces :=
  let pending :=
    (s.kernel_ifaces.map Prod.snd ++ s.user_ifaces.map Prod.snd).foldl
      (fun acc iface =>
        if iface.is_controller then
          acc ++ (find_unknown_type_port iface s).map
            (fun p => (iface.name, iface.iface_type, p))
        else acc) []
  pending.foldl
    (fun acc act =>
      let (ctrl_name, ctrl_type, port_name) := act
      if ctrl_type.is_userspace then
        let u := uupdate acc.user_ifaces (ctrl_name, ctrl_type)
          (fun i => i.remove_port port_name)
        { acc with user_ifaces := u }
      else
        let k := kupdate acc.kernel_ifaces ctrl_name
          (fun i => i.remove_port port_name)
        { acc with kernel_ifaces := k }) s

/-- `verify_desire_absent_but_found_in_current` (`inter_ifaces.rs`): a
virtual current interface should have been deleted, a real one must not be
up. -/
def verify_desire_absent_but_found_in_current (des_iface cur_iface : Interface) :
    Except NmstateError Unit :=
  if cur_iface.is_virtual then
    .error { kind := .verificationError,
             msg := "Absent interface still found" }
  else if cur_iface.is_up then
    .error { kind := .verificationError,
             msg := "Absent interface still found as state up" }
  else .ok ()

/-- The VF walk of `SrIovConfig::verify_sriov` (`sriov.rs`): every VF must
have a resolved kernel name and that name must exist in current. -/
def verify_vfs (cur_ifaces : Interfaces) :
    List SrIovVfConfig → Except NmstateError Unit
  | [] => .ok ()
  | vf :: rest =>
    if vf.iface_name.isEmpty then
      .error { kind := .verificationError,
               msg := "Failed to find VF interface name of PF" }
    else if (cur_ifaces.get_iface vf.iface_name .ethernet).isNone then
      .error { kind := .verificationError,
               msg := "Find VF interface name of PF is not exist yet" }
    else verify_vfs cur_ifaces rest

/-- `SrIovConfig::verify_sriov` (`sriov.rs`), entered through
`EthernetInterface::verify_sriov` with the PF's name: the current PF must
be an Ethernet record, then each current VF is checked. -/
def verify_sriov (pf_name : String) (cur_ifaces : Interfaces) :
    Except NmstateError Unit :=
  match cur_ifaces.get_iface pf_name .ethernet with
  | some cur_pf_iface =>
    if cur_pf_iface.iface_type = .ethernet then
      match cur_pf_iface.sr_iov with
      | some sriov_conf =>
        match sriov_conf.vfs with
        | some vfs => verify_vfs cur_ifaces vfs
        | none => .ok ()
      | none => .ok ()
    else
      .error { kind := .verificationError,
               msg := "Failed to find PF interface" }
  | none =>
    .error { kind := .verificationError,
             msg := "Failed to find PF interface" }

/-- The desire walk of `Interfaces::verify` (`inter_ifaces.rs`),
parametric over the per-variant value verifier `vf` (dispatched
dynamically in Rust, implementations outside the core sources). -/
def verify_go (vf : Interface → Interface → Except NmstateError Unit)
    (cur_clone cur_ifaces : Interfaces) :
    List Interface → Except NmstateError Unit
  | [] => .ok ()
  | iface :: rest =>
    if iface.is_absent || (iface.is_virtual && iface.is_down) then
      match cur_clone.get_iface iface.name iface.iface_type with
      | some cur_iface => do
        verify_desire_absent_but_found_in_current iface cur_iface
        verify_go vf cur_clone cur_ifaces rest
      | none => verify_go vf cur_clone cur_ifaces rest
    else
      match cur_clone.get_iface iface.name iface.iface_type with
      | some cur_iface => do
        vf iface cur_iface
        (if iface.sriov_is_enabled then verify_sriov iface.name cur_ifaces
         else .ok ())
        verify_go vf cur_clone cur_ifaces rest
      | none =>
        .error { kind := .verificationError,
                 msg := "Failed to find desired interface" }

/-- `Interfaces::verify` (`inter_ifaces.rs`): normalise a clone of current
by dropping unknown-type ports, then walk the desire. -/
def Interfaces.verify (vf : Interface → Interface → Except NmstateError Unit)
    (s cur_ifaces : Interfaces) : Except NmstateError Unit :=
  let cur_clone := cur_ifaces.remove_unknown_type_port
  verify_go vf cur_clone cur_ifaces s.to_vec

/-! ### Unknown-type resolution (`Interfaces::resolve_unknown_ifaces`,
claim C5) -/

/-- The collection loop of `Interfaces::resolve_unknown_ifaces`
(`inter_ifaces.rs`) over the user-space map.  An absent Unknown desire
contributes one Absent-marked clone per current interface of that name; a
present Unknown desire requires exactly one current match (zero and two or
more matches are `InvalidArgument`) and is retyped to the match.  The
serde round-trip the source applies to the unique match re-parses the
record as its resolved variant and is the identity at this level of
modelling. -/
def collect_resolved (cur_ifaces : Interfaces) :
    List ((String × InterfaceType) × Interface) →
    Except NmstateError (List Interface)
  | [] => .ok []
  | ((iface_name, iface_type), iface) :: rest =>
    if iface_type ≠ .unknown then collect_resolved cur_ifaces rest
    else if iface.is_absent then do
      let here := (cur_ifaces.to_vec.filter
          (fun c => decide (c.name = iface_name))).map
        (fun c => { c with state := .absent })
      let r ← collect_resolved cur_ifaces rest
      .ok (here ++ r)
    else
      match (cur_ifaces.to_vec.filter
          (fun c => decide (c.name = iface_name))).map
        (fun c => { iface with iface_type := c.iface_type }) with
      | [] =>
        .error { kind := .invalidArgument,
                 msg := "Failed to find unknown type interface in current state" }
      | [found] => do
        let r ← collect_resolved cur_ifaces rest
        .ok (found :: r)
      | _ =>
        .error { kind := .invalidArgument,
                 msg := "Found 2+ interface matching desired unknown type interface" }

/-- `Interfaces::resolve_unknown_ifaces` (`inter_ifaces.rs`): collect the
resolved records, then for each one drop the `(name, Unknown)` user-map
entry and push the resolved record. -/
def Interfaces.resolve_unknown_ifaces (s cur_ifaces : Interfaces) :
    Except NmstateError Interfaces := do
  let resolved ← collect_resolved cur_ifaces s.user_ifaces
  .ok (resolved.foldl
    (fun acc new_iface =>
      let u := uremove acc.user_ifaces (new_iface.name, .unknown)
      Interfaces.push { acc with user_ifaces := u } new_iface) s)

/-! ### `net_state.rs`: retry harness, checkpoint guard, apply (claims
C4, C8, C10) -/

/-- `VERIFY_RETRY_INTERVAL_MILLISECONDS` (`net_state.rs`). -/
def VERIFY_RETRY_INTERVAL_MILLISECONDS : Nat := 1000

/-- `VERIFY_RETRY_COUNT` (`net_state.rs`). -/
def VERIFY_RETRY_COUNT : Nat := 5

/-- `VERIFY_RETRY_COUNT_SRIOV` (`net_state.rs`). -/
def VERIFY_RETRY_COUNT_SRIOV : Nat := 60

/-- `VERIFY_RETRY_COUNT_KERNEL_MODE` (`net_state.rs`). -/
def VERIFY_RETRY_COUNT_KERNEL_MODE : Nat := 5

/-- The `while cur_count < count` loop of `with_retry` (`net_state.rs`).
`func` is indexed by the attempt number (each Rust attempt re-retrieves
current, so attempts may differ); the returned list records one entry per
sleep, each the fixed interval in milliseconds.  The loop guard is
embedded structurally as the fuel `count - cur_count` (zero fuel is the
guard failing, which returns `Ok(())`). -/
def with_retry_go (interval_ms count : Nat)
    (func : Nat → Except NmstateError Unit) :
    Nat → Nat → List Nat → Except NmstateError Unit × List Nat
  | _, 0, sleeps => (.ok (), sleeps)
  | cur_count, fuel + 1, sleeps =>
    match func cur_count with
    | .error e =>
      if cur_count = count - 1 then (.error e, sleeps)
      else with_retry_go interval_ms count func (cur_count + 1) fuel
        (sleeps ++ [interval_ms])
    | .ok _ => (.ok (), sleeps)

/-- `with_retry` (`net_state.rs`): start at `cur_count = 0`. -/
def with_retry (interval_ms : Nat) (count : Nat)
    (func : Nat → Except NmstateError Unit) :
    Except NmstateError Unit × List Nat :=
  with_retry_go interval_ms count func 0 count []

/-- Externally visible backend calls of `NetworkState::apply`, recorded as
a trace by the embedding. -/
inductive NmAction where
  | checkpoint_create (cp : String)
  | nm_apply_call (cp : String)
  | timeout_extend (cp : String) (secs : Nat)
  | checkpoint_destroy (cp : String)
  | checkpoint_rollback (cp : String)
  | nispor_apply_call
  deriving DecidableEq, Repr

/-- `with_nm_checkpoint` (`net_state.rs`): on success of the guarded
function destroy the checkpoint (a destroy failure propagates through
`?`); on any error of the guarded function attempt a rollback, whose own
failure is only logged, and surface the original error. -/
def with_nm_checkpoint (destroy_res rollback_res : Except NmstateError Unit)
    (checkpoint : String)
    (func : Except NmstateError Unit × List NmAction) :
    Except NmstateError Unit × List NmAction :=
  match func.1 with
  | .ok _ =>
    match destroy_res with
    | .ok _ => (.ok (), func.2 ++ [.checkpoint_destroy checkpoint])
    | .error e => (.error e, func.2 ++ [.checkpoint_destroy checkpoint])
  | .error e => (.error e, func.2 ++ [.checkpoint_rollback checkpoint])

/-- `NetworkState` (`net_state.rs`) restricted to the sections the
verified claims consult; routes, rules and DNS live in modules outside
the core sources. -/
structure NetworkState where
  interfaces : Interfaces := Interfaces.new
  kernel_only : Bool := false
  no_verify : Bool := false
  deriving Repr

/-- `NetworkState::new`. -/
def NetworkState.new : NetworkState := {}

/-- `NetworkState::verify` (`net_state.rs`), restricted to the interface
section (the route, rule and DNS verifiers are outside the core sources). -/
def NetworkState.verify (vf : Interface → Interface → Except NmstateError Unit)
    (self current : NetworkState) : Except NmstateError Unit :=
  Interfaces.verify vf self.interfaces current.interfaces

/-- `NetworkState::gen_state_for_apply` (`net_state.rs`), restricted to
the interface section: it clones `self.interfaces` and delegates to
`Interfaces::gen_state_for_apply` (route/rule/DNS validation and folding
are outside the core sources). -/
def NetworkState.gen_state_for_apply (ops : VariantOps)
    (self current : NetworkState) :
    Except NmstateError (NetworkState × NetworkState × NetworkState) := do
  let ifaces := self.interfaces
  let (add_ifaces, chg_ifaces, del_ifaces) ←
    Interfaces.gen_state_for_apply ops ifaces current.interfaces
  .ok ({ NetworkState.new with interfaces := add_ifaces },
       { NetworkState.new with interfaces := chg_ifaces },
       { NetworkState.new with interfaces := del_ifaces })

/-- The oracle for the backend calls `NetworkState::apply` performs;
each field is the outcome the external system would produce (the
verification re-retrieve is indexed by attempt number). -/
structure Backend where
  retrieve_res : Except NmstateError NetworkState
  checkpoint_create_res : Except NmstateError String
  nm_apply_res : Except NmstateError Unit
  timeout_extend_res : Except NmstateError Unit
  verify_retrieve_res : Nat → Except NmstateError NetworkState
  destroy_res : Except NmstateError Unit
  rollback_res : Except NmstateError Unit
  nispor_apply_res : Except NmstateError Unit

/-- One verification attempt inside the retry loop of
`NetworkState::apply`: re-retrieve current, then verify the desire
against it. -/
def verify_attempt (vf : Interface → Interface → Except NmstateError Unit)
    (desire : NetworkState) (b : Backend) (k : Nat) :
    Except NmstateError Unit :=
  match b.verify_retrieve_res k with
  | .error e => .error e
  | .ok new_cur_net_state => NetworkState.verify vf desire new_cur_net_state

/-- `NetworkState::apply` (`net_state.rs`).  The Rust method takes
`&self`; the embedding threads the receiver explicitly and returns it
alongside the result, so that the frame claim (C10) is a statement about
this definition: every operation acts on the clones
`desire_state_to_verify` / `desire_state_to_apply` or on other bindings,
never on the receiver. -/
def NetworkState.apply (vf : Interface → Interface → Except NmstateError Unit)
    (ops : VariantOps) (self : NetworkState) (b : Backend) :
    (Except NmstateError Unit × List NmAction) × NetworkState :=
  let desire_state_to_verify := self
  let desire_state_to_apply := self
  match b.retrieve_res with
  | .error e => ((.error e, []), self)
  | .ok cur_net_state =>
    match Interfaces.resolve_unknown_ifaces desire_state_to_verify.interfaces
        cur_net_state.interfaces with
    | .error e => ((.error e, []), self)
    | .ok v_ifaces =>
      let desire_state_to_verify :=
        { desire_state_to_verify with interfaces := v_ifaces }
      match Interfaces.resolve_unknown_ifaces desire_state_to_apply.interfaces
          cur_net_state.interfaces with
      | .error e => ((.error e, []), self)
      | .ok a_ifaces =>
        let desire_state_to_apply :=
          { desire_state_to_apply with interfaces := a_ifaces }
        match NetworkState.gen_state_for_apply ops desire_state_to_apply
            cur_net_state with
        | .error e => ((.error e, []), self)
        | .ok _ =>
          if self.kernel_only = false then
            let retry_count :=
              if desire_state_to_apply.interfaces.has_sriov_enabled then
                VERIFY_RETRY_COUNT_SRIOV
              else VERIFY_RETRY_COUNT
            match b.checkpoint_create_res with
            | .error e => ((.error e, []), self)
            | .ok checkpoint =>
              let guarded : Except NmstateError Unit × List NmAction :=
                match b.nm_apply_res with
                | .error e => (.error e, [.nm_apply_call checkpoint])
                | .ok _ =>
                  match b.timeout_extend_res with
                  | .error e =>
                    (.error e,
                     [.nm_apply_call checkpoint,
                      .timeout_extend checkpoint
                        (VERIFY_RETRY_INTERVAL_MILLISECONDS * retry_count
                          / 1000)])
                  | .ok _ =>
                    if self.no_verify = false then
                      ((with_retry VERIFY_RETRY_INTERVAL_MILLISECONDS
                          retry_count
                          (verify_attempt vf desire_state_to_verify b)).1,
                       [.nm_apply_call checkpoint,
                        .timeout_extend checkpoint
                          (VERIFY_RETRY_INTERVAL_MILLISECONDS * retry_count
                            / 1000)])
                    else
                      (.ok (),
                       [.nm_apply_call checkpoint,
                        .timeout_extend checkpoint
                          (VERIFY_RETRY_INTERVAL_MILLISECONDS * retry_count
                            / 1000)])
              let r := with_nm_checkpoint b.destroy_res b.rollback_res
                checkpoint guarded
              ((r.1, .checkpoint_create checkpoint :: r.2), self)
          else
            match b.nispor_apply_res with
            | .error e => ((.error e, [.nispor_apply_call]), self)
            | .ok _ =>
              if self.no_verify = false then
                (((with_retry VERIFY_RETRY_INTERVAL_MILLISECONDS
                    VERIFY_RETRY_COUNT_KERNEL_MODE
                    (verify_attempt vf desire_state_to_verify b)).1,
                  [.nispor_apply_call]), self)
              else ((.ok (), [.nispor_apply_call]), self)

/-! ### OVSDB global configuration (`global_conf.rs`, `ovs.rs`; claim C9) -/

/-- The `serde_json::Value` shapes `ovsdb_apply_global_conf` builds:
`["map", []]` (the purge row value), `["set", [keys…]]` (a delete
mutator value) and `["map", [[k, v]…]]` (an insert mutator value). -/
inductive OvsDbValue where
  | emptyMap
  | strSet (keys : List String)
  | strMap (pairs : List (String × String))
  deriving DecidableEq, Repr

/-- `OvsDbMutation` (`ovsdb/operation.rs`). -/
structure OvsDbMutation where
  column : String
  mutator : String
  value : OvsDbValue
  deriving DecidableEq, Repr

/-- `OvsDbUpdate` (`ovsdb/operation.rs`); the conditions are always the
empty vector in `global_conf.rs`. -/
structure OvsDbUpdate where
  table : String
  row : List (String × OvsDbValue)
  deriving DecidableEq, Repr

/-- `OvsDbMutate` (`ovsdb/operation.rs`); conditions always empty here. -/
structure OvsDbMutate where
  table : String
  mutations : List OvsDbMutation
  deriving DecidableEq, Repr

/-- `OvsDbOperation` (`ovsdb/operation.rs`), restricted to the variants
`ovsdb_apply_global_conf` emits. -/
inductive OvsDbOperation where
  | update (u : OvsDbUpdate)
  | mutate (m : OvsDbMutate)
  deriving DecidableEq, Repr

/-- `OvsDbGlobalConfig` (`ovs.rs`): per-column optional maps from key to
optional value (a `none` value means delete-the-key). -/
structure OvsDbGlobalConfig where
  external_ids : Option (List (String × Option String)) := none
  other_config : Option (List (String × Option String)) := none
  deriving DecidableEq, Repr

/-- `OvsDbGlobalConfig::is_purge` (`ovs.rs`): both columns absent, or both
present and empty. -/
def OvsDbGlobalConfig.is_purge (c : OvsDbGlobalConfig) : Bool :=
  match c.external_ids, c.other_config with
  | none, none => true
  | some eids, some oids => eids.isEmpty && oids.isEmpty
  | _, _ => false

/-- `GLOBAL_CONFIG_TABLE` (`global_conf.rs`). -/
def GLOBAL_CONFIG_TABLE : String := "Open_vSwitch"

/-- `append_purge_action` (`global_conf.rs`): an `update` whose row maps
the column to the empty OVSDB map. -/
def purge_action (column : String) : OvsDbOperation :=
  .update { table := GLOBAL_CONFIG_TABLE, row := [(column, .emptyMap)] }

/-- `append_mutations` (`global_conf.rs`): delete every supplied key
first (because `insert` does not overwrite), then insert the keys with a
non-null value. -/
def append_mutations (mutations : List OvsDbMutation) (column : String)
    (data : List (String × Option String)) : List OvsDbMutation :=
  let delete_keys := data.map (fun kv => kv.1)
  let ms :=
    if delete_keys.isEmpty then mutations
    else mutations ++
      [{ column := column, mutator := "delete",
         value := .strSet delete_keys }]
  let insert_values := data.filterMap
    (fun kv => kv.2.map (fun v => (kv.1, v)))
  if insert_values.isEmpty then ms
  else ms ++
    [{ column := column, mutator := "insert",
       value := .strMap insert_values }]

/-- The inputs of `ovsdb_apply_global_conf` (`global_conf.rs`).
`ovsdb_is_changed` embeds `merged_state.ovsdb.is_changed()` and
`ovn_is_changed` / `ovn_map_value` embed `merged_state.ovn.is_changed()`
and `merged_state.ovn.to_ovsdb_external_id_value()`; the merged-state and
OVN types are outside the core sources, so these are carried as abstract
inputs. -/
structure MergedOvsDbInput where
  desired : Option OvsDbGlobalConfig
  ovsdb_is_changed : Bool
  ovn_is_changed : Bool
  ovn_map_value : Option String
  deriving Repr

/-- `ovsdb_apply_global_conf` (`global_conf.rs`) as the list of operations
of the single transaction it issues (the empty list means no transaction
is sent; the socket I/O around the transaction is not modelled). -/
def ovsdb_apply_global_conf_ops (m : MergedOvsDbInput) :
    List OvsDbOperation :=
  if m.ovsdb_is_changed = false ∧ m.ovn_is_changed = false then []
  else
    let main : List OvsDbOperation × Bool :=
      match m.desired with
      | none => ([], false)
      | some desired_ovsdb =>
        if desired_ovsdb.is_purge then
          ([purge_action "external_ids", purge_action "other_config"], true)
        else
          let first : List OvsDbOperation × Bool × List OvsDbMutation :=
            match desired_ovsdb.external_ids with
            | none => ([], false, [])
            | some external_ids =>
              if external_ids.isEmpty then
                ([purge_action "external_ids"], true, [])
              else
                ([], false, append_mutations [] "external_ids" external_ids)
          let (ops1, purged, mutations) := first
          let second : List OvsDbOperation × List OvsDbMutation :=
            match desired_ovsdb.other_config with
            | none => ([], mutations)
            | some other_config =>
              if other_config.isEmpty then
                ([purge_action "other_config"], mutations)
              else
                ([], append_mutations mutations "other_config" other_config)
          let (ops2, mutations) := second
          let mop : List OvsDbOperation :=
            if mutations.isEmpty then []
            else [OvsDbOperation.mutate
                    { table := GLOBAL_CONFIG_TABLE, mutations := mutations }]
          (ops1 ++ ops2 ++ mop, purged)
    let (operations, is_external_ids_purged) := main
    if m.ovn_is_changed ∨
        (is_external_ids_purged ∧ m.ovn_map_value.isSome) then
      let ovn_external_ids := [("ovn-bridge-mappings", m.ovn_map_value)]
      let mutations : List OvsDbMutation :=
        [{ column := "external_ids", mutator := "delete",
           value := .strSet ["ovn-bridge-mappings"] }]
      let mutations := append_mutations mutations "external_ids"
        ovn_external_ids
      operations ++
        [OvsDbOperation.mutate
          { table := GLOBAL_CONFIG_TABLE, mutations := mutations }]
    else operations

/-! ### Statement-level predicates and concrete instances -/

/-- An interface record is an entry of the container (either map). -/
def iface_mem (e : Interface) (s : Interfaces) : Prop :=
  e ∈ s.kernel_ifaces.map Prod.snd ∨ e ∈ s.user_ifaces.map Prod.snd

/-- The container holds some record with the given name and type. -/
def has_name_type (s : Interfaces) (nm : String) (ty : InterfaceType) : Prop :=
  ∃ e, iface_mem e s ∧ e.name = nm ∧ e.iface_type = ty

/-- The record sits in the container under its own key (the shape `push`
produces). -/
def entry_mem (e : Interface) (s : Interfaces) : Prop :=
  (e.name, e) ∈ s.kernel_ifaces ∨ ((e.name, e.iface_type), e) ∈ s.user_ifaces

/-- Both maps are keyed by their records and bucketed by
user-spaceness — the invariant every container built by `push` enjoys. -/
def ifaces_wf (s : Interfaces) : Prop :=
  (∀ kv ∈ s.kernel_ifaces, kv.1 = kv.2.name) ∧
  (∀ kv ∈ s.user_ifaces, kv.1 = (kv.2.name, kv.2.iface_type))

/-- The per-desired-interface success condition of `Interfaces::verify`
(claim C3): an absent or virtual-and-down desire found in the normalised
current must be neither virtual nor up there; any other desire must be
found and pass the per-variant verifier (and the SR-IOV check when
enabled). -/
def verify_passes (vf : Interface → Interface → Except NmstateError Unit)
    (cur_clone cur_ifaces : Interfaces) (iface : Interface) : Prop :=
  if iface.is_absent || (iface.is_virtual && iface.is_down) then
    ∀ cur_iface,
      cur_clone.get_iface iface.name iface.iface_type = some cur_iface →
      verify_desire_absent_but_found_in_current iface cur_iface = .ok ()
  else
    ∃ cur_iface,
      cur_clone.get_iface iface.name iface.iface_type = some cur_iface ∧
      vf iface cur_iface = .ok () ∧
      (iface.sriov_is_enabled = true →
        verify_sriov iface.name cur_ifaces = .ok ())

/-- Variant operations with no per-variant effect, for concrete
instantiation: validation always passes, cleanup is the identity, port
handling leaves the table unchanged. -/
def triv_ops : VariantOps :=
  { validate := fun _ => .ok (),
    pre_edit_cleanup := fun i => .ok i,
    handle_changed_ports := fun s _ => .ok s,
    check_overbook_ports := fun _ _ => .ok () }

/-! ## Theorems -/

/-- C4: in the checkpoint-guarded apply path, a successful guarded
function leads to a checkpoint destroy; a failing guarded function leads
to a checkpoint rollback with the original error surfaced unchanged, and
the outcome is independent of the rollback call's own result (a rollback
failure is only logged). -/
theorem with_nm_checkpoint_spec
    (destroy_res rollback_res : Except NmstateError Unit)
    (checkpoint : String) (func : Except NmstateError Unit × List NmAction) :
    (func.1 = .ok () →
      NmAction.checkpoint_destroy checkpoint ∈
        (with_nm_checkpoint destroy_res rollback_res checkpoint func).2) ∧
    (∀ e, func.1 = .error e →
      (with_nm_checkpoint destroy_res rollback_res checkpoint func).1 =
          .error e ∧
      NmAction.checkpoint_rollback checkpoint ∈
        (with_nm_checkpoint destroy_res rollback_res checkpoint func).2 ∧
      ∀ rb, with_nm_checkpoint destroy_res rb checkpoint func =
        with_nm_checkpoint destroy_res rollback_res checkpoint func) := by
  constructor
  · intro h
    cases destroy_res <;> simp [with_nm_checkpoint, h]
  · intro e h
    simp [with_nm_checkpoint, h]

/-- C4 witness: concrete failing guarded function with a failing rollback:
the original error surfaces, the rollback is attempted. -/
theorem with_nm_checkpoint_spec_witness :
    (with_nm_checkpoint (.ok ())
        (.error { kind := .pluginFailure, msg := "rollback failed" }) "cp1"
        (.error { kind := .verificationError, msg := "verify failed" },
         [.nm_apply_call "cp1"])).1 =
      .error { kind := .verificationError, msg := "verify failed" } ∧
    NmAction.checkpoint_rollback "cp1" ∈
      (with_nm_checkpoint (.ok ())
        (.error { kind := .pluginFailure, msg := "rollback failed" }) "cp1"
        (.error { kind := .verificationError, msg := "verify failed" },
         [.nm_apply_call "cp1"])).2 :=
  let h := (with_nm_checkpoint_spec (.ok ())
    (.error { kind := .pluginFailure, msg := "rollback failed" }) "cp1"
    (.error { kind := .verificationError, msg := "verify failed" },
     [.nm_apply_call "cp1"])).2
    { kind := .verificationError, msg := "verify failed" } rfl
  ⟨h.1, h.2.1⟩

/-- C10: `NetworkState::apply` never mutates its receiver: the embedding
threads the receiver through every exit path of the call and returns it
unchanged — all reconciliation work happens on the clones
`desire_state_to_verify` and `desire_state_to_apply`. -/
theorem apply_preserves_receiver
    (vf : Interface → Interface → Except NmstateError Unit)
    (ops : VariantOps) (self : NetworkState) (b : Backend) :
    (NetworkState.apply vf ops self b).2 = self := by
  unfold NetworkState.apply
  dsimp only
  repeat' split <;> try rfl

/-- Retry loop, first-success case: with attempts `0..k` failing and
attempt `k` succeeding, the loop returns `Ok` after exactly `k` sleeps. -/
theorem with_retry_go_first_success (interval_ms count k : Nat)
    (func : Nat → Except NmstateError Unit)
    (hk : k < count) (hok : func k = .ok ())
    (hfail : ∀ j, j < k → ∃ e, func j = .error e) :
    ∀ fuel cur_count sleeps, cur_count + fuel = count → cur_count ≤ k →
      with_retry_go interval_ms count func cur_count fuel sleeps =
        (.ok (), sleeps ++ List.replicate (k - cur_count) interval_ms) := by
  intro fuel
  induction fuel with
  | zero =>
    intro cur_count sleeps hsum hle
    omega
  | succ fuel ih =>
    intro cur_count sleeps hsum hle
    rcases Nat.eq_or_lt_of_le hle with heq | hlt
    · subst heq
      simp [with_retry_go, hok]
    · obtain ⟨e, he⟩ := hfail cur_count hlt
      have hne : ¬ (cur_count = count - 1) := by omega
      have hrep : k - cur_count = (k - (cur_count + 1)) + 1 := by omega
      simp only [with_retry_go, he, if_neg hne]
      rw [ih (cur_count + 1) (sleeps ++ [interval_ms]) (by omega) (by omega)]
      rw [hrep, List.replicate_succ]
      simp

/-- Retry loop, all-fail case: with every attempt failing, the loop
returns the error of the last attempt after `count - 1` sleeps. -/
theorem with_retry_go_all_fail (interval_ms count : Nat)
    (func : Nat → Except NmstateError Unit) (e : NmstateError)
    (hc : 0 < count) (hlast : func (count - 1) = .error e)
    (hfail : ∀ j, j < count → ∃ e2, func j = .error e2) :
    ∀ fuel cur_count sleeps, cur_count + fuel = count →
      cur_count ≤ count - 1 →
      with_retry_go interval_ms count func cur_count fuel sleeps =
        (.error e, sleeps ++ List.replicate (count - 1 - cur_count) interval_ms) := by
  intro fuel
  induction fuel with
  | zero =>
    intro cur_count sleeps hsum hle
    omega
  | succ fuel ih =>
    intro cur_count sleeps hsum hle
    rcases Nat.eq_or_lt_of_le hle with heq | hlt
    · subst heq
      simp [with_retry_go, hlast]
    · obtain ⟨e2, he2⟩ := hfail cur_count (by omega)
      have hne : ¬ (cur_count = count - 1) := by omega
      have hrep : count - 1 - cur_count = (count - 1 - (cur_count + 1)) + 1 := by
        omega
      simp only [with_retry_go, he2, if_neg hne]
      rw [ih (cur_count + 1) (sleeps ++ [interval_ms]) (by omega) (by omega)]
      rw [hrep, List.replicate_succ]
      simp

/-- C8: the verification retry harness returns `Ok` at the first
successful attempt (after one fixed-interval sleep per preceding
failure), returns the last attempt's error unchanged when every attempt
fails, and the configured counts are 5 (normal), 5 (kernel-only) and 60
(SR-IOV) with a 1000 ms interval. -/
theorem with_retry_spec (interval_ms count : Nat)
    (func : Nat → Except NmstateError Unit) :
    (∀ k, k < count → func k = .ok () →
      (∀ j, j < k → ∃ e, func j = .error e) →
      with_retry interval_ms count func =
        (.ok (), List.replicate k interval_ms)) ∧
    (∀ e, 0 < count → func (count - 1) = .error e →
      (∀ j, j < count → ∃ e2, func j = .error e2) →
      with_retry interval_ms count func =
        (.error e, List.replicate (count - 1) interval_ms)) ∧
    VERIFY_RETRY_INTERVAL_MILLISECONDS = 1000 ∧
    VERIFY_RETRY_COUNT = 5 ∧
    VERIFY_RETRY_COUNT_KERNEL_MODE = 5 ∧
    VERIFY_RETRY_COUNT_SRIOV = 60 := by
  refine ⟨?_, ?_, rfl, rfl, rfl, rfl⟩
  · intro k hk hok hfail
    have h := with_retry_go_first_success interval_ms count k func hk hok hfail
      count 0 [] (by omega) (by omega)
    simpa [with_retry] using h
  · intro e hc hlast hfail
    have h := with_retry_go_all_fail interval_ms count func e hc hlast hfail
      count 0 [] (by omega) (by omega)
    simpa [with_retry] using h

/-- C8 witness: two attempts, the first failing and the second
succeeding: the harness returns `Ok` after one 1000 ms sleep. -/
theorem with_retry_spec_witness :
    with_retry 1000 2
      (fun j => if j = 0 then
        .error { kind := .verificationError, msg := "attempt 0" }
      else .ok ()) = (.ok (), [1000]) :=
  (with_retry_spec 1000 2
    (fun j => if j = 0 then
      .error { kind := .verificationError, msg := "attempt 0" }
    else .ok ())).1 1 (by omega) rfl
    (fun j hj => ⟨{ kind := .verificationError, msg := "attempt 0" },
      by have hj0 : j = 0 := by omega
         subst hj0
         rfl⟩)

/-- C9 (amended): a purge-shaped desired OVSDB global config emits update
operations purging both columns; when additionally the OVN bridge-mapping
value is set or the OVN mapping changed, the same transaction carries a
mutate operation that deletes the `ovn-bridge-mappings` key, and
re-inserts it when the OVN value is set. -/
theorem ovsdb_purge_spec (m : MergedOvsDbInput) (d : OvsDbGlobalConfig)
    (hd : m.desired = some d) (hp : d.is_purge = true)
    (hch : m.ovsdb_is_changed = true ∨ m.ovn_is_changed = true) :
    purge_action "external_ids" ∈ ovsdb_apply_global_conf_ops m ∧
    purge_action "other_config" ∈ ovsdb_apply_global_conf_ops m ∧
    ((m.ovn_map_value.isSome = true ∨ m.ovn_is_changed = true) →
      ∃ ms,
        OvsDbOperation.mutate { table := GLOBAL_CONFIG_TABLE, mutations := ms } ∈
          ovsdb_apply_global_conf_ops m ∧
        ({ column := "external_ids", mutator := "delete",
           value := .strSet ["ovn-bridge-mappings"] } : OvsDbMutation) ∈ ms ∧
        (∀ v, m.ovn_map_value = some v →
          ({ column := "external_ids", mutator := "insert",
             value := .strMap [("ovn-bridge-mappings", v)] } : OvsDbMutation) ∈
            ms)) := by
  obtain ⟨des, sch, och, omv⟩ := m
  simp only at hd hp hch ⊢
  subst hd
  cases sch <;> cases och <;> rcases omv with _ | v
  · simp at hch
  · simp at hch
  · -- sch false, och true, no OVN value
    refine ⟨by simp [ovsdb_apply_global_conf_ops, hp],
            by simp [ovsdb_apply_global_conf_ops, hp], fun _ => ?_⟩
    refine ⟨[{ column := "external_ids", mutator := "delete",
               value := .strSet ["ovn-bridge-mappings"] },
             { column := "external_ids", mutator := "delete",
               value := .strSet ["ovn-bridge-mappings"] }],
      by simp [ovsdb_apply_global_conf_ops, hp, append_mutations], by simp,
      fun v hv => Option.noConfusion hv⟩
  · -- sch false, och true, OVN value set
    refine ⟨by simp [ovsdb_apply_global_conf_ops, hp],
            by simp [ovsdb_apply_global_conf_ops, hp], fun _ => ?_⟩
    refine ⟨[{ column := "external_ids", mutator := "delete",
               value := .strSet ["ovn-bridge-mappings"] },
             { column := "external_ids", mutator := "delete",
               value := .strSet ["ovn-bridge-mappings"] },
             { column := "external_ids", mutator := "insert",
               value := .strMap [("ovn-bridge-mappings", v)] }],
      by simp [ovsdb_apply_global_conf_ops, hp, append_mutations], by simp,
      fun v2 hv2 => by cases hv2; simp⟩
  · -- sch true, och false, no OVN value
    refine ⟨by simp [ovsdb_apply_global_conf_ops, hp],
            by simp [ovsdb_apply_global_conf_ops, hp], fun hcontra => ?_⟩
    rcases hcontra with h | h <;> simp at h
  · -- sch true, och false, OVN value set
    refine ⟨by simp [ovsdb_apply_global_conf_ops, hp],
            by simp [ovsdb_apply_global_conf_ops, hp], fun _ => ?_⟩
    refine ⟨[{ column := "external_ids", mutator := "delete",
               value := .strSet ["ovn-bridge-mappings"] },
             { column := "external_ids", mutator := "delete",
               value := .strSet ["ovn-bridge-mappings"] },
             { column := "external_ids", mutator := "insert",
               value := .strMap [("ovn-bridge-mappings", v)] }],
      by simp [ovsdb_apply_global_conf_ops, hp, append_mutations], by simp,
      fun v2 hv2 => by cases hv2; simp⟩
  · -- sch true, och true, no OVN value
    refine ⟨by simp [ovsdb_apply_global_conf_ops, hp],
            by simp [ovsdb_apply_global_conf_ops, hp], fun _ => ?_⟩
    refine ⟨[{ column := "external_ids", mutator := "delete",
               value := .strSet ["ovn-bridge-mappings"] },
             { column := "external_ids", mutator := "delete",
               value := .strSet ["ovn-bridge-mappings"] }],
      by simp [ovsdb_apply_global_conf_ops, hp, append_mutations], by simp,
      fun v hv => Option.noConfusion hv⟩
  · -- sch true, och true, OVN value set
    refine ⟨by simp [ovsdb_apply_global_conf_ops, hp],
            by simp [ovsdb_apply_global_conf_ops, hp], fun _ => ?_⟩
    refine ⟨[{ column := "external_ids", mutator := "delete",
               value := .strSet ["ovn-bridge-mappings"] },
             { column := "external_ids", mutator := "delete",
               value := .strSet ["ovn-bridge-mappings"] },
             { column := "external_ids", mutator := "insert",
               value := .strMap [("ovn-bridge-mappings", v)] }],
      by simp [ovsdb_apply_global_conf_ops, hp, append_mutations], by simp,
      fun v2 hv2 => by cases hv2; simp⟩

/-- C9 witness: the literal purge `ovs-db: {}` with the OVN mapping set
(scenario S6): both columns are purged and the mapping is deleted and
re-inserted in the same transaction. -/
theorem ovsdb_purge_spec_witness :
    purge_action "external_ids" ∈ ovsdb_apply_global_conf_ops
      { desired := some {}, ovsdb_is_changed := true,
        ovn_is_changed := false,
        ovn_map_value := some "physnet1:br-ex" } ∧
    purge_action "other_config" ∈ ovsdb_apply_global_conf_ops
      { desired := some {}, ovsdb_is_changed := true,
        ovn_is_changed := false,
        ovn_map_value := some "physnet1:br-ex" } ∧
    ∃ ms,
      OvsDbOperation.mutate { table := GLOBAL_CONFIG_TABLE, mutations := ms } ∈
        ovsdb_apply_global_conf_ops
          { desired := some {}, ovsdb_is_changed := true,
            ovn_is_changed := false,
            ovn_map_value := some "physnet1:br-ex" } ∧
      ({ column := "external_ids", mutator := "delete",
         value := .strSet ["ovn-bridge-mappings"] } : OvsDbMutation) ∈ ms ∧
      ({ column := "external_ids", mutator := "insert",
         value := .strMap [("ovn-bridge-mappings", "physnet1:br-ex")] } :
          OvsDbMutation) ∈ ms := by
  have h := ovsdb_purge_spec
    { desired := some {}, ovsdb_is_changed := true, ovn_is_changed := false,
      ovn_map_value := some "physnet1:br-ex" } {} rfl rfl (Or.inl rfl)
  obtain ⟨ms, hmem, hdel, hins⟩ := h.2.2 (Or.inl rfl)
  exact ⟨h.1, h.2.1, ms, hmem, hdel, hins "physnet1:br-ex" rfl⟩

/-- C9 counterexample: the claim as stated requires a re-insert of
`ovn-bridge-mappings` whenever the purge fires and the OVN mapping
changed; with the OVN mapping changed to the unset value the emitted
transaction deletes the key but contains no `insert` mutation at all. -/
theorem ovsdb_purge_counterexample :
    OvsDbGlobalConfig.is_purge {} = true ∧
    ovsdb_apply_global_conf_ops
        { desired := some {}, ovsdb_is_changed := true,
          ovn_is_changed := true, ovn_map_value := none } =
      [purge_action "external_ids", purge_action "other_config",
       OvsDbOperation.mutate
         { table := GLOBAL_CONFIG_TABLE,
           mutations :=
             [{ column := "external_ids", mutator := "delete",
                value := .strSet ["ovn-bridge-mappings"] },
              { column := "external_ids", mutator := "delete",
                value := .strSet ["ovn-bridge-mappings"] }] }] ∧
    ((ovsdb_apply_global_conf_ops
        { desired := some {}, ovsdb_is_changed := true,
          ovn_is_changed := true, ovn_map_value := none }).all
      (fun op =>
        match op with
        | .mutate mt => mt.mutations.all (fun mu => mu.mutator != "insert")
        | _ => true)) = true := by
  refine ⟨rfl, ?_, ?_⟩ <;> decide

/-- Folding `min` over a list bounds every element of the list (and the
seed) from below. -/
theorem foldl_min_le (qs : List Int) :
    ∀ q x : Int, x ∈ q :: qs → qs.foldl min q ≤ x := by
  induction qs with
  | nil =>
    intro q x hx
    simp at hx
    simp [hx]
  | cons a as ih =>
    intro q x hx
    have hseed : ∀ b : Int, as.foldl min b ≤ b := by
      intro b
      have := ih b b (by simp)
      simpa using this
    rcases List.mem_cons.mp hx with hq | hx2
    · subst hq
      calc (a :: as).foldl min x = as.foldl min (min x a) := by simp
        _ ≤ min x a := hseed _
        _ ≤ x := min_le_left _ _
    · rcases List.mem_cons.mp hx2 with ha | has
      · subst ha
        calc (x :: as).foldl min q = as.foldl min (min q x) := by simp
          _ ≤ min q x := hseed _
          _ ≤ x := min_le_right _ _
      · have := ih (min q a) x (List.mem_cons_of_mem _ has)
        simpa using this

/-- A non-updating priority-pass step is exactly the identity step. -/
theorem up_priority_pass_step_cases (s : Interfaces)
    (k : String × InterfaceType) :
    up_priority_pass_step (s, false) k = (s, false) ∨
    (up_priority_pass_step (s, false) k).2 = true := by
  unfold up_priority_pass_step
  dsimp only
  repeat' split <;> try (first | rfl | assumption | simp_all)

/-- A pass step that starts with the changed flag set keeps it set. -/
theorem up_priority_pass_step_true (s : Interfaces)
    (k : String × InterfaceType) :
    (up_priority_pass_step (s, true) k).2 = true := by
  unfold up_priority_pass_step
  dsimp only
  repeat' split <;> try (first | rfl | assumption | simp_all)

/-- Once a pass step reports a change, the rest of the pass keeps the
changed flag. -/
theorem up_priority_pass_foldl_true (ks : List (String × InterfaceType)) :
    ∀ p : Interfaces × Bool, p.2 = true →
      (ks.foldl up_priority_pass_step p).2 = true := by
  induction ks with
  | nil => intro p hp; simpa using hp
  | cons k ks ih =>
    intro p hp
    have hstep : (up_priority_pass_step p k).2 = true := by
      obtain ⟨s, c⟩ := p
      simp only at hp
      subst hp
      exact up_priority_pass_step_true s k
    simpa using ih (up_priority_pass_step p k) hstep

/-- A pass that reports no change left the table untouched and every step
of it was the identity step. -/
theorem up_priority_pass_foldl_false (ks : List (String × InterfaceType)) :
    ∀ s s' : Interfaces, ks.foldl up_priority_pass_step (s, false) = (s', false) →
      s' = s ∧ ∀ k ∈ ks, up_priority_pass_step (s, false) k = (s, false) := by
  induction ks with
  | nil =>
    intro s s' h
    simp only [List.foldl_nil] at h
    injection h with h1 h2
    exact ⟨h1.symm, by simp⟩
  | cons k ks ih =>
    intro s s' h
    simp only [List.foldl_cons] at h
    rcases up_priority_pass_step_cases s k with hid | htrue
    · rw [hid] at h
      obtain ⟨hs, hall⟩ := ih s s' h
      refine ⟨hs, ?_⟩
      intro k2 hk2
      rcases List.mem_cons.mp hk2 with h1 | h2
      · subst h1; exact hid
      · exact hall k2 h2
    · exfalso
      have htr := up_priority_pass_foldl_true ks
        (up_priority_pass_step (s, false) k) htrue
      rw [h] at htr
      simp at htr

/-- A converged pass is a fixpoint of the whole pass. -/
theorem up_priority_pass_false (s s1 : Interfaces)
    (h : up_priority_pass s = (s1, false)) :
    s1 = s ∧ ∀ k ∈ s.insert_order,
      up_priority_pass_step (s, false) k = (s, false) :=
  up_priority_pass_foldl_false s.insert_order s s1 h

/-- At an identity pass step, a controller's priority is strictly below
the priority of each of its ports resolvable in the table. -/
theorem up_priority_step_fix (s : Interfaces) (key : String × InterfaceType)
    (hstep : up_priority_pass_step (s, false) key = (s, false))
    (c : Interface) (hc : s.get_iface key.1 key.2 = some c)
    (port_names : List String) (hpl : c.ports = some port_names)
    (p : String) (hp : p ∈ port_names)
    (pif : Interface) (hpi : s.get_iface p .unknown = some pif) :
    c.up_priority < pif.up_priority := by
  unfold up_priority_pass_step at hstep
  dsimp only at hstep
  simp only [hc, hpl] at hstep
  have hmem : pif.up_priority ∈ port_names.filterMap
      (fun p => (s.get_iface p .unknown).map Interface.up_priority) :=
    List.mem_filterMap.mpr ⟨p, hp, by rw [hpi]; rfl⟩
  cases heq : port_names.filterMap
      (fun p => (s.get_iface p .unknown).map Interface.up_priority) with
  | nil => rw [heq] at hmem; simp at hmem
  | cons q qs =>
    rw [heq] at hstep hmem
    dsimp only at hstep
    by_cases hif : min c.up_priority (qs.foldl min q - 1) = c.up_priority
    · have hle : c.up_priority ≤ qs.foldl min q - 1 := by
        have := min_eq_left_iff.mp hif
        omega
      have hm := foldl_min_le qs q pif.up_priority hmem
      omega
    · rw [if_neg hif] at hstep
      simp at hstep

/-- A successful `set_up_priority` ends at a table where a further pass
reports no change. -/
theorem set_up_priority_go_ok :
    ∀ n s s', set_up_priority_go n s = .ok s' →
      up_priority_pass s' = (s', false) := by
  intro n
  induction n with
  | zero =>
    intro s s' h
    exact absurd h (by simp [set_up_priority_go])
  | succ n ih =>
    intro s s' h
    unfold set_up_priority_go at h
    by_cases hc : (up_priority_pass s).2 = true
    · rw [if_pos hc] at h
      exact ih _ _ h
    · rw [if_neg hc] at h
      injection h with h1
      have hpair : up_priority_pass s = ((up_priority_pass s).1, false) := by
        rw [Prod.ext_iff]
        exact ⟨rfl, by simpa using hc⟩
      have hfix : (up_priority_pass s).1 = s :=
        (up_priority_pass_false s _ hpair).1
      rw [← h1, hfix]
      rw [hfix] at hpair
      exact hpair

/-- A failing `set_up_priority` always reports `InvalidArgument`. -/
theorem set_up_priority_go_err :
    ∀ n s e, set_up_priority_go n s = .error e →
      e.kind = .invalidArgument := by
  intro n
  induction n with
  | zero =>
    intro s e h
    simp only [set_up_priority_go] at h
    injection h with h1
    rw [← h1]
  | succ n ih =>
    intro s e h
    unfold set_up_priority_go at h
    by_cases hc : (up_priority_pass s).2 = true
    · rw [if_pos hc] at h
      exact ih _ _ h
    · rw [if_neg hc] at h
      exact absurd h (by simp)

/-- C2: `set_up_priority` runs at most four fixpoint passes; a successful
run ends at a pass fixpoint at which every controller's priority is
strictly below each of its ports' priorities (ports resolved through the
table, controllers reached through the insertion order); a failing run
reports `InvalidArgument`. -/
theorem set_up_priority_spec (s : Interfaces) :
    (∀ s', s.set_up_priority = .ok s' →
      up_priority_pass s' = (s', false) ∧
      ∀ key c port_names p pif,
        key ∈ s'.insert_order →
        s'.get_iface key.1 key.2 = some c →
        c.ports = some port_names →
        p ∈ port_names →
        s'.get_iface p .unknown = some pif →
        c.up_priority < pif.up_priority) ∧
    (∀ e, s.set_up_priority = .error e → e.kind = .invalidArgument) ∧
    INTERFACES_SET_PRIORITY_MAX_RETRY = 4 := by
  refine ⟨?_, ?_, rfl⟩
  · intro s' hok
    have hfix : up_priority_pass s' = (s', false) :=
      set_up_priority_go_ok _ _ _ hok
    refine ⟨hfix, ?_⟩
    intro key c port_names p pif hkey hc hpl hp hpi
    have hsteps := (up_priority_pass_false s' s' hfix).2 key hkey
    exact up_priority_step_fix s' key hsteps c hc port_names hpl p hp pif hpi
  · intro e herr
    exact set_up_priority_go_err _ _ _ herr

/-- C2 witness: a bridge over one ethernet port resolves in two passes to
priorities `-1 < 0`. -/
theorem set_up_priority_spec_witness :
    ({ name := "br0", iface_type := .linuxBridge, up_priority := -1,
       ports := some ["eth0"] } : Interface).up_priority <
      ({ name := "eth0", iface_type := .ethernet } : Interface).up_priority := by
  have h := (set_up_priority_spec
    ((Interfaces.new.push
        { name := "br0", iface_type := .linuxBridge,
          ports := some ["eth0"] }).push
      { name := "eth0", iface_type := .ethernet })).1
    { kernel_ifaces :=
        [("br0", { name := "br0", iface_type := .linuxBridge,
                   up_priority := -1, ports := some ["eth0"] }),
         ("eth0", { name := "eth0", iface_type := .ethernet })],
      user_ifaces := [],
      insert_order := [("br0", .linuxBridge), ("eth0", .ethernet)] }
    (by rfl)
  exact h.2 ("br0", .linuxBridge)
    { name := "br0", iface_type := .linuxBridge, up_priority := -1,
      ports := some ["eth0"] }
    ["eth0"] "eth0" { name := "eth0", iface_type := .ethernet }
    (by decide) (by decide) rfl (by decide) (by decide)

/-- Insert-or-replace puts the value at its key. -/
theorem kfind_kinsert_self (m : List (String × Interface)) (n : String)
    (v : Interface) : kfind (kinsert m n v) n = some v := by
  induction m with
  | nil => simp [kinsert, kfind]
  | cons kv rest ih =>
    by_cases h : kv.1 = n
    · simp [kinsert, kfind, h]
    · obtain ⟨k, w⟩ := kv
      simp only at h
      simp [kinsert, kfind, h, ih]

/-- Insert-or-replace never removes a key. -/
theorem kfind_kinsert_isSome (m : List (String × Interface)) (n : String)
    (v : Interface) (n2 : String)
    (h : (kfind m n2).isSome = true) :
    (kfind (kinsert m n v) n2).isSome = true := by
  induction m with
  | nil => simp [kfind] at h
  | cons kv rest ih =>
    obtain ⟨k, w⟩ := kv
    simp only [kinsert]
    by_cases hk : k = n
    · rw [if_pos hk]
      by_cases h2 : n = n2
      · simp [kfind, h2]
      · simp only [kfind, if_neg h2]
        simp only [kfind] at h
        rw [if_neg (by rw [hk]; exact h2)] at h
        exact h
    · rw [if_neg hk]
      by_cases h2 : k = n2
      · simp [kfind, h2]
      · simp only [kfind, if_neg h2] at h ⊢
        exact ih h

/-- `push` never removes a name from the kernel map. -/
theorem push_kernel_isSome (s : Interfaces) (i : Interface) (n : String)
    (h : (kfind s.kernel_ifaces n).isSome = true) :
    (kfind (s.push i).kernel_ifaces n).isSome = true := by
  unfold Interfaces.push
  dsimp only
  by_cases hu : i.is_userspace
  · simp [hu, h]
  · simp only [hu]
    simp [kfind_kinsert_isSome _ _ _ _ h]

/-- Pushing a kernel-typed interface makes its name present in the kernel
map. -/
theorem push_kernel_self (s : Interfaces) (i : Interface)
    (hu : i.is_userspace = false) :
    kfind (s.push i).kernel_ifaces i.name = some i := by
  unfold Interfaces.push
  dsimp only
  simp [hu, kfind_kinsert_self]

/-- One orphan-cascade step never removes a name from the delete set. -/
theorem mark_orphan_step_isSome (chg_ifaces del_ifaces : Interfaces)
    (kv : String × Interface) (n : String)
    (h : (kfind del_ifaces.kernel_ifaces n).isSome = true) :
    (kfind (mark_orphan_step chg_ifaces del_ifaces kv).kernel_ifaces n).isSome =
      true := by
  unfold mark_orphan_step
  dsimp only
  repeat' split
  · exact push_kernel_isSome _ _ _ h
  · exact h
  · exact h

/-- The orphan cascade never removes a name from the delete set. -/
theorem mark_orphan_foldl_isSome (chg_ifaces : Interfaces)
    (l : List (String × Interface)) :
    ∀ del_ifaces n, (kfind del_ifaces.kernel_ifaces n).isSome = true →
      (kfind (l.foldl (mark_orphan_step chg_ifaces) del_ifaces).kernel_ifaces
        n).isSome = true := by
  induction l with
  | nil => intro del n h; simpa using h
  | cons kv rest ih =>
    intro del n h
    exact ih _ n (mark_orphan_step_isSome chg_ifaces del kv n h)

/-- C7 (amended): every current kernel interface whose effective parent
(the change entry's parent when the change set has the name, else the
current parent) is in the delete set as produced by classification ends
up in the delete set after the orphan cascade; the appended entry is a
name-and-type-only clone marked Absent when the name was not already
there.  Interfaces whose parent only joins the delete set *during* the
cascade can be missed, depending on map iteration order (see the
counterexample). -/
theorem mark_orphan_cascade (del_ifaces chg_ifaces current : Interfaces)
    (n0 : String) (i0 : Interface)
    (hmem : (n0, i0) ∈ current.kernel_ifaces)
    (hker : i0.iface_type.is_userspace = false)
    (p : String)
    (hpar : (match kfind chg_ifaces.kernel_ifaces i0.name with
             | some chg_iface => chg_iface.parent
             | none => i0.parent) = some p)
    (hdel : (kfind del_ifaces.kernel_ifaces p).isSome = true) :
    (kfind (mark_orphan_interface_as_absent del_ifaces chg_ifaces
        current).kernel_ifaces i0.name).isSome = true := by
  unfold mark_orphan_interface_as_absent
  have hgen : ∀ (l : List (String × Interface)) (del : Interfaces),
      (n0, i0) ∈ l →
      (kfind del.kernel_ifaces p).isSome = true →
      (kfind (l.foldl (mark_orphan_step chg_ifaces) del).kernel_ifaces
        i0.name).isSome = true := by
    intro l
    induction l with
    | nil => intro del h; simp at h
    | cons kv rest ih =>
      intro del hin hp2
      rcases List.mem_cons.mp hin with heq | htail
      · subst heq
        simp only [List.foldl_cons]
        by_cases halready :
            (kfind del.kernel_ifaces i0.name).isSome = true
        · exact mark_orphan_foldl_isSome chg_ifaces rest _ _
            (mark_orphan_step_isSome chg_ifaces del (n0, i0) _ halready)
        · have hstep : mark_orphan_step chg_ifaces del (n0, i0) =
              del.push { i0.clone_name_type_only with state := .absent } := by
            unfold mark_orphan_step
            dsimp only
            rw [hpar]
            dsimp only
            rw [if_pos]
            constructor
            · exact hp2
            · simp only [Option.isNone_iff_eq_none]
              cases hx : kfind del.kernel_ifaces i0.name
              · rfl
              · exact absurd (by simp [hx]) halready
          rw [hstep]
          have hself : kfind
              (del.push { i0.clone_name_type_only with
                            state := .absent }).kernel_ifaces i0.name =
              some { i0.clone_name_type_only with state := .absent } := by
            have := push_kernel_self del
              { i0.clone_name_type_only with state := .absent }
              (by simpa [Interface.is_userspace,
                    Interface.clone_name_type_only] using hker)
            simpa [Interface.clone_name_type_only] using this
          exact mark_orphan_foldl_isSome chg_ifaces rest _ _ (by simp [hself])
      · simp only [List.foldl_cons]
        exact ih _ htail
          (mark_orphan_step_isSome chg_ifaces del kv p hp2)
  exact hgen current.kernel_ifaces del_ifaces hmem hdel

/-- C7 witness: a VLAN whose parent bond is deleted is marked absent by
the cascade. -/
theorem mark_orphan_cascade_witness :
    (kfind (mark_orphan_interface_as_absent
        (Interfaces.new.push
          { name := "bond0", iface_type := .bond, state := .absent })
        Interfaces.new
        { kernel_ifaces :=
            [("vlan10", { name := "vlan10", iface_type := .vlan,
                          parent := some "bond0" })],
          user_ifaces := [], insert_order := [("vlan10", .vlan)] }).kernel_ifaces
      "vlan10").isSome = true := by
  have h := mark_orphan_cascade
    (Interfaces.new.push
      { name := "bond0", iface_type := .bond, state := .absent })
    Interfaces.new
    { kernel_ifaces :=
        [("vlan10", { name := "vlan10", iface_type := .vlan,
                      parent := some "bond0" })],
      user_ifaces := [], insert_order := [("vlan10", .vlan)] }
    "vlan10" { name := "vlan10", iface_type := .vlan, parent := some "bond0" }
    (by decide) (by decide) "bond0" (by decide) (by decide)
  exact h

/-- C7 counterexample: with current iterated as `c` (parent `b`) before
`b` (parent `a`) and only `a` deleted by classification, the cascade
appends `b` but misses `c`, although `c`'s parent `b` is in the final
delete set — the claimed closure property fails for transitive chains. -/
theorem mark_orphan_counterexample :
    (("c", ({ name := "c", iface_type := .vlan,
              parent := some "b" } : Interface)) ∈
      ({ kernel_ifaces :=
           [("c", { name := "c", iface_type := .vlan, parent := some "b" }),
            ("b", { name := "b", iface_type := .vlan, parent := some "a" })],
         user_ifaces := [],
         insert_order := [("c", .vlan), ("b", .vlan)] } :
        Interfaces).kernel_ifaces) ∧
    ({ name := "c", iface_type := .vlan,
       parent := some "b" } : Interface).parent = some "b" ∧
    (kfind (mark_orphan_interface_as_absent
        (Interfaces.new.push
          { name := "a", iface_type := .vlan, state := .absent })
        Interfaces.new
        { kernel_ifaces :=
            [("c", { name := "c", iface_type := .vlan, parent := some "b" }),
             ("b", { name := "b", iface_type := .vlan, parent := some "a" })],
          user_ifaces := [],
          insert_order := [("c", .vlan), ("b", .vlan)] }).kernel_ifaces
      "b").isSome = true ∧
    kfind (mark_orphan_interface_as_absent
        (Interfaces.new.push
          { name := "a", iface_type := .vlan, state := .absent })
        Interfaces.new
        { kernel_ifaces :=
            [("c", { name := "c", iface_type := .vlan, parent := some "b" }),
             ("b", { name := "b", iface_type := .vlan, parent := some "a" })],
          user_ifaces := [],
          insert_order := [("c", .vlan), ("b", .vlan)] }).kernel_ifaces
      "c" = none := by
  refine ⟨by decide, rfl, by decide, by decide⟩

/-- Every error of the unknown-type collection loop is
`InvalidArgument`. -/
theorem collect_resolved_err (cur_ifaces : Interfaces) :
    ∀ l e, collect_resolved cur_ifaces l = .error e →
      e.kind = .invalidArgument := by
  intro l
  induction l with
  | nil =>
    intro e h
    simp [collect_resolved] at h
  | cons kv rest ih =>
    obtain ⟨⟨n, t⟩, i⟩ := kv
    intro e h
    by_cases ht : t ≠ InterfaceType.unknown
    · rw [collect_resolved, if_pos ht] at h
      exact ih e h
    · rw [collect_resolved, if_neg ht] at h
      by_cases ha : i.is_absent
      · rw [if_pos ha] at h
        cases hr : collect_resolved cur_ifaces rest with
        | error e2 =>
          rw [hr] at h
          simp only [bind, Except.bind] at h
          injection h with h1
          subst h1
          exact ih e2 hr
        | ok r =>
          rw [hr] at h
          simp only [bind, Except.bind] at h
          exact absurd h (by simp)
      · rw [if_neg ha] at h
        cases hf : (cur_ifaces.to_vec.filter
            (fun c => decide (c.name = n))).map
            (fun c => { i with iface_type := c.iface_type }) with
        | nil =>
          rw [hf] at h
          injection h with h1
          subst h1
          rfl
        | cons f fs =>
          rw [hf] at h
          cases fs with
          | nil =>
            cases hr : collect_resolved cur_ifaces rest with
            | error e2 =>
              rw [hr] at h
              simp only [bind, Except.bind] at h
              injection h with h1
              subst h1
              exact ih e2 hr
            | ok r =>
              rw [hr] at h
              simp only [bind, Except.bind] at h
              exact absurd h (by simp)
          | cons f2 fs2 =>
            injection h with h1
            subst h1
            rfl

/-- The unknown-type collection loop succeeds exactly when every
present (non-absent) Unknown-typed entry has exactly one current
interface of its name. -/
theorem collect_resolved_isOk (cur_ifaces : Interfaces) :
    ∀ l, (collect_resolved cur_ifaces l).isOk = true ↔
      ∀ kv ∈ l, kv.1.2 = InterfaceType.unknown → kv.2.is_absent = false →
        (cur_ifaces.to_vec.filter
          (fun c => decide (c.name = kv.1.1))).length = 1 := by
  intro l
  induction l with
  | nil =>
    constructor
    · intro _ kv hkv
      simp at hkv
    · intro _
      rfl
  | cons kv rest ih =>
    obtain ⟨⟨n, t⟩, i⟩ := kv
    rw [collect_resolved]
    by_cases ht : t ≠ InterfaceType.unknown
    · rw [if_pos ht, ih]
      constructor
      · intro hrest kv2 hkv2 hu hab
        rcases List.mem_cons.mp hkv2 with heq | htail
        · subst heq
          exact absurd hu ht
        · exact hrest kv2 htail hu hab
      · intro hall kv2 hkv2 hu hab
        exact hall kv2 (List.mem_cons_of_mem _ hkv2) hu hab
    · push_neg at ht
      subst ht
      rw [if_neg (by simp)]
      by_cases ha : i.is_absent
      · rw [if_pos ha]
        cases hr : collect_resolved cur_ifaces rest with
        | error e2 =>
          simp only [bind, Except.bind]
          constructor
          · intro hfalse
            simp [Except.isOk, Except.toBool] at hfalse
          · intro hall
            have hrest := ih.mpr (fun kv2 htail hu hab =>
              hall kv2 (List.mem_cons_of_mem _ htail) hu hab)
            rw [hr] at hrest
            simp [Except.isOk, Except.toBool] at hrest
        | ok r =>
          simp only [bind, Except.bind]
          constructor
          · intro _ kv2 hkv2 hu hab
            rcases List.mem_cons.mp hkv2 with heq | htail
            · subst heq
              dsimp only at hab
              rw [hab] at ha
              exact absurd ha (by simp)
            · refine ih.mp ?_ kv2 htail hu hab
              rw [hr]
              rfl
          · intro _
            rfl
      · rw [if_neg ha]
        cases hf : cur_ifaces.to_vec.filter (fun c => decide (c.name = n)) with
        | nil =>
          simp only [List.map_nil]
          constructor
          · intro hfalse
            simp [Except.isOk, Except.toBool] at hfalse
          · intro hall
            have hlen := hall ((n, InterfaceType.unknown), i) (by simp) rfl
              (by simpa using ha)
            dsimp only at hlen
            rw [hf] at hlen
            simp at hlen
        | cons c cs =>
          cases cs with
          | nil =>
            simp only [List.map_cons, List.map_nil]
            cases hr : collect_resolved cur_ifaces rest with
            | error e2 =>
              simp only [bind, Except.bind]
              constructor
              · intro hfalse
                simp [Except.isOk, Except.toBool] at hfalse
              · intro hall
                have hrest := ih.mpr (fun kv2 htail hu hab =>
                  hall kv2 (List.mem_cons_of_mem _ htail) hu hab)
                rw [hr] at hrest
                simp [Except.isOk, Except.toBool] at hrest
            | ok r =>
              simp only [bind, Except.bind]
              constructor
              · intro _ kv2 hkv2 hu hab
                rcases List.mem_cons.mp hkv2 with heq | htail
                · subst heq
                  dsimp only
                  rw [hf]
                  rfl
                · refine ih.mp ?_ kv2 htail hu hab
                  rw [hr]
                  rfl
              · intro _
                rfl
          | cons c2 cs2 =>
            simp only [List.map_cons]
            constructor
            · intro hfalse
              simp [Except.isOk, Except.toBool] at hfalse
            · intro hall
              have hlen := hall ((n, InterfaceType.unknown), i) (by simp) rfl
                (by simpa using ha)
              dsimp only at hlen
              rw [hf] at hlen
              simp at hlen

/-- What a successful collection contains: each present Unknown entry
contributes its unique match retyped, each absent Unknown entry
contributes one Absent-marked clone per current interface of its name. -/
theorem collect_resolved_mem (cur_ifaces : Interfaces) :
    ∀ l res, collect_resolved cur_ifaces l = .ok res →
      (∀ kv ∈ l, kv.1.2 = InterfaceType.unknown → kv.2.is_absent = false →
        ∃ c, cur_ifaces.to_vec.filter
            (fun c2 => decide (c2.name = kv.1.1)) = [c] ∧
          ({ kv.2 with iface_type := c.iface_type }) ∈ res) ∧
      (∀ kv ∈ l, kv.1.2 = InterfaceType.unknown → kv.2.is_absent = true →
        ∀ c ∈ cur_ifaces.to_vec, c.name = kv.1.1 →
          ({ c with state := InterfaceState.absent }) ∈ res) := by
  intro l
  induction l with
  | nil =>
    intro res _
    exact ⟨by simp, by simp⟩
  | cons kv rest ih =>
    obtain ⟨⟨n, t⟩, i⟩ := kv
    intro res h
    rw [collect_resolved] at h
    by_cases ht : t ≠ InterfaceType.unknown
    · rw [if_pos ht] at h
      obtain ⟨ih1, ih2⟩ := ih res h
      constructor
      · intro kv2 hkv2 hu hab
        rcases List.mem_cons.mp hkv2 with heq | htail
        · subst heq
          exact absurd hu ht
        · exact ih1 kv2 htail hu hab
      · intro kv2 hkv2 hu hab
        rcases List.mem_cons.mp hkv2 with heq | htail
        · subst heq
          exact absurd hu ht
        · exact ih2 kv2 htail hu hab
    · push_neg at ht
      subst ht
      rw [if_neg (by simp)] at h
      by_cases ha : i.is_absent
      · rw [if_pos ha] at h
        cases hr : collect_resolved cur_ifaces rest with
        | error e2 =>
          rw [hr] at h
          simp [bind, Except.bind] at h
        | ok r =>
          rw [hr] at h
          simp only [bind, Except.bind] at h
          injection h with h1
          subst h1
          obtain ⟨ih1, ih2⟩ := ih r hr
          constructor
          · intro kv2 hkv2 hu hab
            rcases List.mem_cons.mp hkv2 with heq | htail
            · subst heq
              dsimp only at hab
              rw [hab] at ha
              exact absurd ha (by simp)
            · obtain ⟨c, hc1, hc2⟩ := ih1 kv2 htail hu hab
              exact ⟨c, hc1, List.mem_append_right _ hc2⟩
          · intro kv2 hkv2 hu hab
            rcases List.mem_cons.mp hkv2 with heq | htail
            · subst heq
              intro c hc hname
              apply List.mem_append_left
              apply List.mem_map_of_mem
              apply List.mem_filter.mpr
              exact ⟨hc, by simpa using hname⟩
            · intro c hc hname
              exact List.mem_append_right _ (ih2 kv2 htail hu hab c hc hname)
      · rw [if_neg ha] at h
        cases hf : cur_ifaces.to_vec.filter (fun c => decide (c.name = n)) with
        | nil =>
          rw [hf] at h
          simp at h
        | cons c cs =>
          cases cs with
          | nil =>
            rw [hf] at h
            simp only [List.map_cons, List.map_nil] at h
            cases hr : collect_resolved cur_ifaces rest with
            | error e2 =>
              rw [hr] at h
              simp [bind, Except.bind] at h
            | ok r =>
              rw [hr] at h
              simp only [bind, Except.bind] at h
              injection h with h1
              subst h1
              obtain ⟨ih1, ih2⟩ := ih r hr
              constructor
              · intro kv2 hkv2 hu hab
                rcases List.mem_cons.mp hkv2 with heq | htail
                · subst heq
                  exact ⟨c, hf, by simp⟩
                · obtain ⟨c2, hc1, hc2⟩ := ih1 kv2 htail hu hab
                  exact ⟨c2, hc1, List.mem_cons_of_mem _ hc2⟩
              · intro kv2 hkv2 hu hab
                rcases List.mem_cons.mp hkv2 with heq | htail
                · subst heq
                  dsimp only at hab
                  rw [hab] at ha
                  exact absurd rfl ha
                · intro c2 hc hname
                  exact List.mem_cons_of_mem _
                    (ih2 kv2 htail hu hab c2 hc hname)
          | cons c2 cs2 =>
            rw [hf] at h
            simp at h

/-- C5: unknown-type resolution fails with `InvalidArgument` exactly when
some present Unknown-typed desired entry does not have exactly one
current interface of its name; on success each present Unknown entry is
replaced by its unique match's type and each absent Unknown entry yields
one Absent-marked clone per current interface of its name, all folded
into the table (dropping the `(name, Unknown)` user entries). -/
theorem resolve_unknown_spec (s cur_ifaces : Interfaces) :
    (∀ e, s.resolve_unknown_ifaces cur_ifaces = .error e →
      e.kind = .invalidArgument) ∧
    ((s.resolve_unknown_ifaces cur_ifaces).isOk = true ↔
      ∀ kv ∈ s.user_ifaces, kv.1.2 = InterfaceType.unknown →
        kv.2.is_absent = false →
        (cur_ifaces.to_vec.filter
          (fun c => decide (c.name = kv.1.1))).length = 1) ∧
    (∀ out, s.resolve_unknown_ifaces cur_ifaces = .ok out →
      ∃ resolved, collect_resolved cur_ifaces s.user_ifaces = .ok resolved ∧
        out = resolved.foldl (fun acc new_iface =>
          let u := uremove acc.user_ifaces (new_iface.name, .unknown)
          Interfaces.push { acc with user_ifaces := u } new_iface) s ∧
        (∀ kv ∈ s.user_ifaces, kv.1.2 = InterfaceType.unknown →
          kv.2.is_absent = false →
          ∃ c, cur_ifaces.to_vec.filter
              (fun c2 => decide (c2.name = kv.1.1)) = [c] ∧
            ({ kv.2 with iface_type := c.iface_type }) ∈ resolved) ∧
        (∀ kv ∈ s.user_ifaces, kv.1.2 = InterfaceType.unknown →
          kv.2.is_absent = true →
          ∀ c ∈ cur_ifaces.to_vec, c.name = kv.1.1 →
            ({ c with state := InterfaceState.absent }) ∈ resolved)) := by
  refine ⟨?_, ?_, ?_⟩
  · intro e h
    unfold Interfaces.resolve_unknown_ifaces at h
    cases hr : collect_resolved cur_ifaces s.user_ifaces with
    | error e2 =>
      rw [hr] at h
      simp only [bind, Except.bind] at h
      injection h with h1
      subst h1
      exact collect_resolved_err cur_ifaces _ _ hr
    | ok r =>
      rw [hr] at h
      simp [bind, Except.bind] at h
  · rw [← collect_resolved_isOk]
    unfold Interfaces.resolve_unknown_ifaces
    cases hr : collect_resolved cur_ifaces s.user_ifaces <;>
      simp [hr, bind, Except.bind, Except.isOk, Except.toBool]
  · intro out h
    unfold Interfaces.resolve_unknown_ifaces at h
    cases hr : collect_resolved cur_ifaces s.user_ifaces with
    | error e2 =>
      rw [hr] at h
      simp [bind, Except.bind] at h
    | ok r =>
      rw [hr] at h
      simp only [bind, Except.bind] at h
      injection h with h1
      obtain ⟨m1, m2⟩ := collect_resolved_mem cur_ifaces s.user_ifaces r hr
      exact ⟨r, rfl, h1.symm, m1, m2⟩

/-- C5 witness: an unknown-typed `wan0` with exactly one current match
resolves to the match's type (Ethernet). -/
theorem resolve_unknown_spec_witness :
    ∃ resolved,
      collect_resolved
          (Interfaces.new.push { name := "wan0", iface_type := .ethernet })
          ({ kernel_ifaces := [], insert_order := [("wan0", .unknown)],
             user_ifaces := [(("wan0", .unknown),
               { name := "wan0", iface_type := .unknown })] } :
            Interfaces).user_ifaces = .ok resolved ∧
      ∃ c, (Interfaces.new.push
            { name := "wan0", iface_type := .ethernet }).to_vec.filter
          (fun c2 => decide (c2.name = "wan0")) = [c] ∧
        ({ ({ name := "wan0", iface_type := .unknown } : Interface) with
             iface_type := c.iface_type }) ∈ resolved := by
  obtain ⟨resolved, hc, _, m1, _⟩ :=
    (resolve_unknown_spec
      { kernel_ifaces := [], insert_order := [("wan0", .unknown)],
        user_ifaces := [(("wan0", .unknown),
          { name := "wan0", iface_type := .unknown })] }
      (Interfaces.new.push { name := "wan0", iface_type := .ethernet })).2.2
    { kernel_ifaces :=
        [("wan0", { name := "wan0", iface_type := .ethernet })],
      user_ifaces := [],
      insert_order := [("wan0", .unknown), ("wan0", .ethernet)] }
    (by rfl)
  exact ⟨resolved, hc,
    m1 (("wan0", .unknown), { name := "wan0", iface_type := .unknown })
      (by simp) rfl (by decide)⟩

/-- Looking a name up after the DHCP-address rewrite is the rewrite of the
original lookup. -/
theorem include_dhcp_kfind (cur : Interfaces) :
    ∀ (m : List (String × Interface)) (n : String),
      kfind (m.map (fun kv =>
        match kfind cur.kernel_ifaces kv.2.name with
        | some cur_iface => (kv.1, kv.2.include_dhcp_addrs cur_iface)
        | none => kv)) n =
      (kfind m n).map (fun d =>
        match kfind cur.kernel_ifaces d.name with
        | some c => d.include_dhcp_addrs c
        | none => d) := by
  intro m
  induction m with
  | nil => intro n; rfl
  | cons kv rest ih =>
    intro n
    obtain ⟨k, v⟩ := kv
    cases hc : kfind cur.kernel_ifaces v.name with
    | some c =>
      simp only [List.map_cons, hc]
      by_cases hk : k = n
      · simp [kfind, hk, hc]
      · simp [kfind, hk, ih]
    | none =>
      simp only [List.map_cons, hc]
      by_cases hk : k = n
      · simp [kfind, hk, hc]
      · simp [kfind, hk, ih]

/-- C6: an interface of the change set whose desire turns DHCP off with no
static addresses, while current has DHCP on, is carried with the current
(dynamic) addresses as static; and `gen_state_for_apply` emits exactly
this rewrite of the classified change set (followed by the orphan cascade
on the delete set). -/
theorem include_dhcp_spec :
    (∀ (chg cur : Interfaces) (n : String) (d c : Interface)
        (d4 c4 : IpConfig),
      kfind chg.kernel_ifaces n = some d → d.name = n →
      kfind cur.kernel_ifaces n = some c →
      d.ipv4 = some d4 → d4.dhcp = some false → d4.addresses = none →
      c.ipv4 = some c4 → c4.dhcp = some true →
      kfind (include_current_ip_address_if_dhcp_on_to_off
          chg cur).kernel_ifaces n = some (d.include_dhcp_addrs c) ∧
      (d.include_dhcp_addrs c).ipv4 =
        some { d4 with addresses := c4.addresses }) ∧
    (∀ ops s cur r, Interfaces.gen_state_for_apply ops s cur = .ok r →
      ∃ s2 add0 chg0 del0,
        prep_for_apply ops s cur = .ok s2 ∧
        classify_ifaces ops cur s2.to_vec
          (Interfaces.new, Interfaces.new, Interfaces.new) =
          .ok (add0, chg0, del0) ∧
        r = (add0, include_current_ip_address_if_dhcp_on_to_off chg0 cur,
             mark_orphan_interface_as_absent del0
               (include_current_ip_address_if_dhcp_on_to_off chg0 cur) cur)) := by
  constructor
  · intro chg cur n d c d4 c4 hd hname hc hd4 hdhcp hnoaddr hc4 hcdhcp
    constructor
    · unfold include_current_ip_address_if_dhcp_on_to_off
      dsimp only
      rw [include_dhcp_kfind cur chg.kernel_ifaces n, hd]
      dsimp only [Option.map]
      rw [hname, hc]
    · unfold Interface.include_dhcp_addrs
      dsimp only
      unfold copy_dhcp_off_family
      rw [hd4, hc4]
      dsimp only
      rw [if_pos ⟨hdhcp, hcdhcp, hnoaddr⟩]
  · intro ops s cur r h
    unfold Interfaces.gen_state_for_apply at h
    cases hp : prep_for_apply ops s cur with
    | error e =>
      rw [hp] at h
      simp [bind, Except.bind] at h
    | ok s2 =>
      rw [hp] at h
      simp only [bind, Except.bind] at h
      cases hcl : classify_ifaces ops cur s2.to_vec
          (Interfaces.new, Interfaces.new, Interfaces.new) with
      | error e =>
        rw [hcl] at h
        simp [bind, Except.bind] at h
      | ok acc =>
        obtain ⟨add0, chg0, del0⟩ := acc
        rw [hcl] at h
        simp only [bind, Except.bind] at h
        injection h with h1
        exact ⟨s2, add0, chg0, del0, rfl, hcl, h1.symm⟩

/-- C6 witness: scenario S1 — `eth0` turning DHCP off with no static
addresses keeps the current dynamic address `192.0.2.10/24` as static. -/
theorem include_dhcp_spec_witness :
    kfind (include_current_ip_address_if_dhcp_on_to_off
        { kernel_ifaces := [("eth0", { name := "eth0", iface_type := .ethernet, ipv4 := some { enabled := true, dhcp := some false } })],
          user_ifaces := [], insert_order := [("eth0", .ethernet)] }
        { kernel_ifaces := [("eth0", { name := "eth0", iface_type := .ethernet, ipv4 := some { enabled := true, dhcp := some true, addresses := some ["192.0.2.10/24"] } })],
          user_ifaces := [], insert_order := [("eth0", .ethernet)] }).kernel_ifaces
      "eth0" =
      some (Interface.include_dhcp_addrs
        { name := "eth0", iface_type := .ethernet, ipv4 := some { enabled := true, dhcp := some false } }
        { name := "eth0", iface_type := .ethernet, ipv4 := some { enabled := true, dhcp := some true, addresses := some ["192.0.2.10/24"] } }) ∧
    (Interface.include_dhcp_addrs
        { name := "eth0", iface_type := .ethernet, ipv4 := some { enabled := true, dhcp := some false } }
        { name := "eth0", iface_type := .ethernet, ipv4 := some { enabled := true, dhcp := some true, addresses := some ["192.0.2.10/24"] } }).ipv4 =
      some { enabled := true, dhcp := some false, addresses := some ["192.0.2.10/24"] } :=
  include_dhcp_spec.1
    { kernel_ifaces := [("eth0", { name := "eth0", iface_type := .ethernet, ipv4 := some { enabled := true, dhcp := some false } })],
      user_ifaces := [], insert_order := [("eth0", .ethernet)] }
    { kernel_ifaces := [("eth0", { name := "eth0", iface_type := .ethernet, ipv4 := some { enabled := true, dhcp := some true, addresses := some ["192.0.2.10/24"] } })],
      user_ifaces := [], insert_order := [("eth0", .ethernet)] }
    "eth0"
    { name := "eth0", iface_type := .ethernet, ipv4 := some { enabled := true, dhcp := some false } }
    { name := "eth0", iface_type := .ethernet, ipv4 := some { enabled := true, dhcp := some true, addresses := some ["192.0.2.10/24"] } }
    { enabled := true, dhcp := some false }
    { enabled := true, dhcp := some true, addresses := some ["192.0.2.10/24"] }
    rfl rfl rfl rfl rfl rfl rfl rfl

/-- Entries after a kernel insert-or-replace: the inserted entry or an old
one. -/
theorem kinsert_mem (m : List (String × Interface)) (n : String)
    (v : Interface) :
    ∀ kv ∈ kinsert m n v, kv = (n, v) ∨ kv ∈ m := by
  induction m with
  | nil => intro kv h; simp [kinsert] at h; simp [h]
  | cons kw rest ih =>
    obtain ⟨k, w⟩ := kw
    intro kv h
    simp only [kinsert] at h
    by_cases hk : k = n
    · rw [if_pos hk] at h
      rcases List.mem_cons.mp h with h1 | h1
      · exact Or.inl h1
      · exact Or.inr (List.mem_cons_of_mem _ h1)
    · rw [if_neg hk] at h
      rcases List.mem_cons.mp h with h1 | h1
      · exact Or.inr (h1 ▸ List.mem_cons_self _ _)
      · rcases ih kv h1 with h2 | h2
        · exact Or.inl h2
        · exact Or.inr (List.mem_cons_of_mem _ h2)

/-- Entries after a user insert-or-replace: the inserted entry or an old
one. -/
theorem uinsert_mem (m : List ((String × InterfaceType) × Interface))
    (key : String × InterfaceType) (v : Interface) :
    ∀ kv ∈ uinsert m key v, kv = (key, v) ∨ kv ∈ m := by
  induction m with
  | nil => intro kv h; simp [uinsert] at h; simp [h]
  | cons kw rest ih =>
    obtain ⟨k, w⟩ := kw
    intro kv h
    simp only [uinsert] at h
    by_cases hk : k = key
    · rw [if_pos hk] at h
      rcases List.mem_cons.mp h with h1 | h1
      · exact Or.inl h1
      · exact Or.inr (List.mem_cons_of_mem _ h1)
    · rw [if_neg hk] at h
      rcases List.mem_cons.mp h with h1 | h1
      · exact Or.inr (h1 ▸ List.mem_cons_self _ _)
      · rcases ih kv h1 with h2 | h2
        · exact Or.inl h2
        · exact Or.inr (List.mem_cons_of_mem _ h2)

/-- A kernel insert-or-replace keeps every entry with a different key. -/
theorem kinsert_mem_of_ne (m : List (String × Interface)) (n : String)
    (v : Interface) (kv : String × Interface)
    (h : kv ∈ m) (hne : kv.1 ≠ n) : kv ∈ kinsert m n v := by
  induction m with
  | nil => simp at h
  | cons kw rest ih =>
    obtain ⟨k, w⟩ := kw
    simp only [kinsert]
    rcases List.mem_cons.mp h with h1 | h1
    · subst h1
      rw [if_neg (by simpa using hne)]
      exact List.mem_cons_self _ _
    · by_cases hk : k = n
      · rw [if_pos hk]
        exact List.mem_cons_of_mem _ h1
      · rw [if_neg hk]
        exact List.mem_cons_of_mem _ (ih h1)

/-- A user insert-or-replace keeps every entry with a different key. -/
theorem uinsert_mem_of_ne (m : List ((String × InterfaceType) × Interface))
    (key : String × InterfaceType) (v : Interface)
    (kv : (String × InterfaceType) × Interface)
    (h : kv ∈ m) (hne : kv.1 ≠ key) : kv ∈ uinsert m key v := by
  induction m with
  | nil => simp at h
  | cons kw rest ih =>
    obtain ⟨k, w⟩ := kw
    simp only [uinsert]
    rcases List.mem_cons.mp h with h1 | h1
    · subst h1
      rw [if_neg (by simpa using hne)]
      exact List.mem_cons_self _ _
    · by_cases hk : k = key
      · rw [if_pos hk]
        exact List.mem_cons_of_mem _ h1
      · rw [if_neg hk]
        exact List.mem_cons_of_mem _ (ih h1)

/-- The inserted entry is present after a kernel insert-or-replace. -/
theorem kinsert_mem_self (m : List (String × Interface)) (n : String)
    (v : Interface) : (n, v) ∈ kinsert m n v := by
  induction m with
  | nil => simp [kinsert]
  | cons kw rest ih =>
    obtain ⟨k, w⟩ := kw
    simp only [kinsert]
    by_cases hk : k = n
    · rw [if_pos hk]; exact List.mem_cons_self _ _
    · rw [if_neg hk]; exact List.mem_cons_of_mem _ ih

/-- The inserted entry is present after a user insert-or-replace. -/
theorem uinsert_mem_self (m : List ((String × InterfaceType) × Interface))
    (key : String × InterfaceType) (v : Interface) :
    (key, v) ∈ uinsert m key v := by
  induction m with
  | nil => simp [uinsert]
  | cons kw rest ih =>
    obtain ⟨k, w⟩ := kw
    simp only [uinsert]
    by_cases hk : k = key
    · rw [if_pos hk]; exact List.mem_cons_self _ _
    · rw [if_neg hk]; exact List.mem_cons_of_mem _ ih

/-- A record of a pushed container is the pushed record or an old one. -/
theorem push_iface_mem (s : Interfaces) (i e : Interface)
    (h : iface_mem e (s.push i)) : e = i ∨ iface_mem e s := by
  unfold Interfaces.push at h
  dsimp only at h
  by_cases hu : i.is_userspace
  · rw [if_pos hu] at h
    rcases h with h | h
    · exact Or.inr (Or.inl h)
    · obtain ⟨kv, hkv, hkv2⟩ := List.mem_map.mp h
      rcases uinsert_mem _ _ _ kv hkv with h2 | h2
      · subst h2; exact Or.inl hkv2.symm
      · exact Or.inr (Or.inr (List.mem_map.mpr ⟨kv, h2, hkv2⟩))
  · rw [if_neg hu] at h
    rcases h with h | h
    · obtain ⟨kv, hkv, hkv2⟩ := List.mem_map.mp h
      rcases kinsert_mem _ _ _ kv hkv with h2 | h2
      · subst h2; exact Or.inl hkv2.symm
      · exact Or.inr (Or.inl (List.mem_map.mpr ⟨kv, h2, hkv2⟩))
    · exact Or.inr (Or.inr h)

/-- `push` keeps the maps keyed by their records. -/
theorem push_wf (s : Interfaces) (i : Interface)
    (h : ifaces_wf s) : ifaces_wf (s.push i) := by
  obtain ⟨hk, hu2⟩ := h
  unfold Interfaces.push
  dsimp only
  by_cases hu : i.is_userspace
  · rw [if_pos hu]
    refine ⟨hk, ?_⟩
    intro kv hkv
    rcases uinsert_mem _ _ _ kv hkv with h2 | h2
    · subst h2; rfl
    · exact hu2 kv h2
  · rw [if_neg hu]
    refine ⟨?_, hu2⟩
    intro kv hkv
    rcases kinsert_mem _ _ _ kv hkv with h2 | h2
    · subst h2; rfl
    · exact hk kv h2

/-- The pushed record is in the container under its own key. -/
theorem push_entry_mem_self (s : Interfaces) (i : Interface) :
    entry_mem i (s.push i) := by
  unfold entry_mem Interfaces.push
  dsimp only
  by_cases hu : i.is_userspace
  · rw [if_pos hu]
    exact Or.inr (uinsert_mem_self _ _ _)
  · rw [if_neg hu]
    exact Or.inl (kinsert_mem_self _ _ _)

/-- Pushing a record of a different name keeps a keyed entry. -/
theorem push_entry_mem_preserve (s : Interfaces) (i j : Interface)
    (h : entry_mem j s) (hne : i.name ≠ j.name) :
    entry_mem j (s.push i) := by
  unfold entry_mem at h ⊢
  unfold Interfaces.push
  dsimp only
  by_cases hu : i.is_userspace
  · rw [if_pos hu]
    rcases h with h | h
    · exact Or.inl h
    · refine Or.inr (uinsert_mem_of_ne _ _ _ _ h ?_)
      intro hx
      exact hne ((Prod.ext_iff.mp hx).1.symm)
  · rw [if_neg hu]
    rcases h with h | h
    · refine Or.inl (kinsert_mem_of_ne _ _ _ _ h ?_)
      intro hx
      exact hne hx.symm
    · exact Or.inr h

/-- Pushing establishes presence of the pushed name/type. -/
theorem push_has_name_type_self (s : Interfaces) (i : Interface) :
    has_name_type (s.push i) i.name i.iface_type := by
  refine ⟨i, ?_, rfl, rfl⟩
  unfold iface_mem Interfaces.push
  dsimp only
  by_cases hu : i.is_userspace
  · rw [if_pos hu]
    exact Or.inr (List.mem_map.mpr ⟨_, uinsert_mem_self _ _ _, rfl⟩)
  · rw [if_neg hu]
    exact Or.inl (List.mem_map.mpr ⟨_, kinsert_mem_self _ _ _, rfl⟩)

/-- In a well-keyed container, pushing preserves presence of a name/type,
provided the pushed record agrees on the type when it shares the name. -/
theorem push_has_name_type_preserve (s : Interfaces) (i : Interface)
    (nm : String) (ty : InterfaceType)
    (hwf : ifaces_wf s) (h : has_name_type s nm ty)
    (hagree : i.name = nm → i.iface_type = ty) :
    has_name_type (s.push i) nm ty := by
  by_cases hn : i.name = nm
  · have := hagree hn
    subst hn
    rw [← this]
    exact push_has_name_type_self s i
  · obtain ⟨e, hmem, hnm, hty⟩ := h
    refine ⟨e, ?_, hnm, hty⟩
    unfold iface_mem at hmem ⊢
    unfold Interfaces.push
    dsimp only
    by_cases hu : i.is_userspace
    · rw [if_pos hu]
      rcases hmem with hm | hm
      · exact Or.inl hm
      · obtain ⟨kv, hkv, hkv2⟩ := List.mem_map.mp hm
        refine Or.inr (List.mem_map.mpr ⟨kv, ?_, hkv2⟩)
        apply uinsert_mem_of_ne _ _ _ _ hkv
        have hkey := hwf.2 kv hkv
        rw [hkey, hkv2]
        intro hx
        exact hn (((Prod.ext_iff.mp hx).1).symm.trans hnm)
    · rw [if_neg hu]
      rcases hmem with hm | hm
      · obtain ⟨kv, hkv, hkv2⟩ := List.mem_map.mp hm
        refine Or.inl (List.mem_map.mpr ⟨kv, ?_, hkv2⟩)
        apply kinsert_mem_of_ne _ _ _ _ hkv
        have hkey := hwf.1 kv hkv
        rw [hkey, hkv2, hnm]
        exact fun hx => hn hx.symm
      · exact Or.inr hm

/-- Case analysis of one successful classification step: an absent desire
leaves add and change untouched; otherwise an up desire validated
successfully and the desire went to change (current name match, current
type made authoritative, cleanup applied) or to add (no match, cleanup
applied). -/
theorem classify_step_cases (ops : VariantOps) (cur : Interfaces)
    (acc acc' : Interfaces × Interfaces × Interfaces) (iface : Interface)
    (h : classify_step ops cur acc iface = .ok acc') :
    (iface.is_absent = true ∧ acc'.1 = acc.1 ∧ acc'.2.1 = acc.2.1) ∨
    (iface.is_absent = false ∧
      (iface.is_up = true → ops.validate iface = .ok ()) ∧
      ((∃ c j, kfind cur.kernel_ifaces iface.name = some c ∧
          ops.pre_edit_cleanup (iface.set_iface_type c.iface_type) = .ok j ∧
          acc'.1 = acc.1 ∧ acc'.2.1 = acc.2.1.push j) ∨
       (kfind cur.kernel_ifaces iface.name = none ∧
        ∃ j, ops.pre_edit_cleanup iface = .ok j ∧
          acc'.1 = acc.1.push j ∧ acc'.2.1 = acc.2.1))) := by
  obtain ⟨add0, chg0, del0⟩ := acc
  unfold classify_step at h
  dsimp only at h
  by_cases ha : iface.is_absent
  · rw [if_pos ha] at h
    injection h with h1
    exact Or.inl ⟨ha, by rw [← h1], by rw [← h1]⟩
  · rw [if_neg ha] at h
    cases hv : (if iface.is_up then ops.validate iface else .ok ()) with
    | error e =>
      rw [hv] at h
      simp [bind, Except.bind] at h
    | ok u =>
      rw [hv] at h
      simp only [bind, Except.bind] at h
      have hval : iface.is_up = true → ops.validate iface = .ok () := by
        intro hup
        rw [if_pos hup] at hv
        cases u
        exact hv
      cases hc : kfind cur.kernel_ifaces iface.name with
      | some cur_iface =>
        rw [hc] at h
        dsimp only at h
        cases hp : ops.pre_edit_cleanup
            (iface.set_iface_type cur_iface.iface_type) with
        | error e =>
          rw [hp] at h
          simp [bind, Except.bind] at h
        | ok j =>
          rw [hp] at h
          simp only [bind, Except.bind] at h
          injection h with h1
          refine Or.inr ⟨by simpa using ha, hval,
            Or.inl ⟨cur_iface, j, rfl, hp, ?_, ?_⟩⟩ <;> rw [← h1]
      | none =>
        rw [hc] at h
        dsimp only at h
        cases hp : ops.pre_edit_cleanup iface with
        | error e =>
          rw [hp] at h
          simp [bind, Except.bind] at h
        | ok j =>
          rw [hp] at h
          simp only [bind, Except.bind] at h
          injection h with h1
          refine Or.inr ⟨by simpa using ha, hval,
            Or.inr ⟨rfl, j, rfl, ?_, ?_⟩⟩ <;> rw [← h1]

/-- Classification validates every up, non-absent desired interface. -/
theorem classify_ifaces_validate (ops : VariantOps) (cur : Interfaces) :
    ∀ l acc out, classify_ifaces ops cur l acc = .ok out →
      ∀ iface ∈ l, iface.is_absent = false → iface.is_up = true →
        ops.validate iface = .ok () := by
  intro l
  induction l with
  | nil =>
    intro acc out h iface hif
    simp at hif
  | cons i0 rest ih =>
    intro acc out h iface hif
    rw [classify_ifaces] at h
    cases hs : classify_step ops cur acc i0 with
    | error e =>
      rw [hs] at h
      simp [bind, Except.bind] at h
    | ok acc1 =>
      rw [hs] at h
      simp only [bind, Except.bind] at h
      rcases List.mem_cons.mp hif with heq | htail
      · subst heq
        intro hab hup
        rcases classify_step_cases ops cur acc acc1 iface hs with h1 | h2
        · rw [h1.1] at hab
          exact absurd hab (by simp)
        · exact h2.2.1 hup
      · exact ih acc1 out h iface htail

/-- Classification preserves: the change set is well-keyed and every
record of it has the type of the current kernel interface of its name. -/
theorem classify_ifaces_chg_inv (ops : VariantOps) (cur : Interfaces)
    (hpre : ∀ i j, ops.pre_edit_cleanup i = .ok j →
      j.name = i.name ∧ j.iface_type = i.iface_type) :
    ∀ l acc out, classify_ifaces ops cur l acc = .ok out →
      ifaces_wf acc.2.1 →
      (∀ e, iface_mem e acc.2.1 → ∃ c,
        kfind cur.kernel_ifaces e.name = some c ∧
        e.iface_type = c.iface_type) →
      ifaces_wf out.2.1 ∧
      (∀ e, iface_mem e out.2.1 → ∃ c,
        kfind cur.kernel_ifaces e.name = some c ∧
        e.iface_type = c.iface_type) := by
  intro l
  induction l with
  | nil =>
    intro acc out h hwf hty
    rw [classify_ifaces] at h
    injection h with h1
    rw [← h1]
    exact ⟨hwf, hty⟩
  | cons i0 rest ih =>
    intro acc out h hwf hty
    rw [classify_ifaces] at h
    cases hs : classify_step ops cur acc i0 with
    | error e =>
      rw [hs] at h
      simp [bind, Except.bind] at h
    | ok acc1 =>
      rw [hs] at h
      simp only [bind, Except.bind] at h
      rcases classify_step_cases ops cur acc acc1 i0 hs with h1 | h2
      · exact ih acc1 out h (h1.2.2 ▸ hwf) (h1.2.2 ▸ hty)
      · rcases h2.2.2 with ⟨c, j, hc, hp, _, hchg⟩ | ⟨_, j, hp, _, hchg⟩
        · obtain ⟨hjn, hjt⟩ := hpre _ _ hp
          have hjn2 : j.name = i0.name := hjn
          have hjt2 : j.iface_type = c.iface_type := hjt
          refine ih acc1 out h (hchg ▸ push_wf _ _ hwf) ?_
          rw [hchg]
          intro e he
          rcases push_iface_mem _ _ _ he with he2 | he2
          · subst he2
            exact ⟨c, by rw [hjn2]; exact hc, hjt2⟩
          · exact hty e he2
        · exact ih acc1 out h (hchg ▸ hwf) (hchg ▸ hty)

/-- Classification preserves presence of any name whose type agrees with
current (the change set only ever receives records typed from current). -/
theorem classify_ifaces_presence_preserve (ops : VariantOps)
    (cur : Interfaces)
    (hpre : ∀ i j, ops.pre_edit_cleanup i = .ok j →
      j.name = i.name ∧ j.iface_type = i.iface_type) :
    ∀ l acc out, classify_ifaces ops cur l acc = .ok out →
      ifaces_wf acc.2.1 →
      ∀ nm ty c, kfind cur.kernel_ifaces nm = some c →
        ty = c.iface_type →
        has_name_type acc.2.1 nm ty → has_name_type out.2.1 nm ty := by
  intro l
  induction l with
  | nil =>
    intro acc out h hwf nm ty c hc hty hhas
    rw [classify_ifaces] at h
    injection h with h1
    rw [← h1]
    exact hhas
  | cons i0 rest ih =>
    intro acc out h hwf nm ty c hc hty hhas
    rw [classify_ifaces] at h
    cases hs : classify_step ops cur acc i0 with
    | error e =>
      rw [hs] at h
      simp [bind, Except.bind] at h
    | ok acc1 =>
      rw [hs] at h
      simp only [bind, Except.bind] at h
      rcases classify_step_cases ops cur acc acc1 i0 hs with h1 | h2
      · exact ih acc1 out h (h1.2.2 ▸ hwf) nm ty c hc hty (h1.2.2 ▸ hhas)
      · rcases h2.2.2 with ⟨c2, j, hc2, hp, _, hchg⟩ | ⟨_, j, hp, _, hchg⟩
        · obtain ⟨hjn, hjt⟩ := hpre _ _ hp
          have hjn2 : j.name = i0.name := hjn
          have hjt2 : j.iface_type = c2.iface_type := hjt
          refine ih acc1 out h (hchg ▸ push_wf _ _ hwf) nm ty c hc hty ?_
          rw [hchg]
          apply push_has_name_type_preserve _ _ _ _ hwf hhas
          intro hjnm
          have hin : i0.name = nm := by rw [← hjn2]; exact hjnm
          have hceq : c2 = c := by
            rw [hin] at hc2
            rw [hc2] at hc
            injection hc
          rw [hty, ← hceq]
          exact hjt2
        · exact ih acc1 out h (hchg ▸ hwf) nm ty c hc hty (hchg ▸ hhas)

/-- Every non-absent desire whose name is in the current kernel map ends
in the change set with current's type. -/
theorem classify_ifaces_presence_new (ops : VariantOps) (cur : Interfaces)
    (hpre : ∀ i j, ops.pre_edit_cleanup i = .ok j →
      j.name = i.name ∧ j.iface_type = i.iface_type) :
    ∀ l acc out, classify_ifaces ops cur l acc = .ok out →
      ifaces_wf acc.2.1 →
      ∀ iface ∈ l, iface.is_absent = false →
        ∀ c, kfind cur.kernel_ifaces iface.name = some c →
          has_name_type out.2.1 iface.name c.iface_type := by
  intro l
  induction l with
  | nil =>
    intro acc out h hwf iface hif
    simp at hif
  | cons i0 rest ih =>
    intro acc out h hwf iface hif hab c hc
    rw [classify_ifaces] at h
    cases hs : classify_step ops cur acc i0 with
    | error e =>
      rw [hs] at h
      simp [bind, Except.bind] at h
    | ok acc1 =>
      rw [hs] at h
      simp only [bind, Except.bind] at h
      rcases List.mem_cons.mp hif with heq | htail
      · subst heq
        rcases classify_step_cases ops cur acc acc1 iface hs with h1 | h2
        · rw [h1.1] at hab
          exact absurd hab (by simp)
        · rcases h2.2.2 with ⟨c2, j, hc2, hp, _, hchg⟩ | ⟨hnone, _⟩
          · obtain ⟨hjn, hjt⟩ := hpre _ _ hp
            have hjn2 : j.name = iface.name := hjn
            have hjt2 : j.iface_type = c2.iface_type := hjt
            have hceq : c2 = c := by
              rw [hc2] at hc
              injection hc
            subst hceq
            have hstart : has_name_type acc1.2.1 iface.name c2.iface_type := by
              rw [hchg]
              have hself := push_has_name_type_self acc.2.1 j
              rw [hjn2, hjt2] at hself
              exact hself
            exact classify_ifaces_presence_preserve ops cur hpre rest acc1 out
              h (hchg ▸ push_wf _ _ hwf) iface.name c2.iface_type c2 hc rfl
              hstart
          · rw [hnone] at hc
            exact absurd hc (by simp)
      · rcases classify_step_cases ops cur acc acc1 i0 hs with h1 | h2
        · exact ih acc1 out h (h1.2.2 ▸ hwf) iface htail hab c hc
        · rcases h2.2.2 with ⟨c2, j, _, _, _, hchg⟩ | ⟨_, j, _, _, hchg⟩
          · exact ih acc1 out h (hchg ▸ push_wf _ _ hwf) iface htail hab c hc
          · exact ih acc1 out h (hchg ▸ hwf) iface htail hab c hc

/-- Classification leaves keyed add-set entries of names not mentioned in
the remaining desires in place. -/
theorem classify_ifaces_add_preserve (ops : VariantOps) (cur : Interfaces)
    (hpre : ∀ i j, ops.pre_edit_cleanup i = .ok j →
      j.name = i.name ∧ j.iface_type = i.iface_type) :
    ∀ l acc out, classify_ifaces ops cur l acc = .ok out →
      ∀ j, entry_mem j acc.1 → (∀ i2 ∈ l, i2.name ≠ j.name) →
        entry_mem j out.1 := by
  intro l
  induction l with
  | nil =>
    intro acc out h j hj _
    rw [classify_ifaces] at h
    injection h with h1
    rw [← h1]
    exact hj
  | cons i0 rest ih =>
    intro acc out h j hj hnames
    rw [classify_ifaces] at h
    cases hs : classify_step ops cur acc i0 with
    | error e =>
      rw [hs] at h
      simp [bind, Except.bind] at h
    | ok acc1 =>
      rw [hs] at h
      simp only [bind, Except.bind] at h
      have hrest : ∀ i2 ∈ rest, i2.name ≠ j.name :=
        fun i2 h2 => hnames i2 (List.mem_cons_of_mem _ h2)
      rcases classify_step_cases ops cur acc acc1 i0 hs with h1 | h2
      · exact ih acc1 out h j (h1.2.1 ▸ hj) hrest
      · rcases h2.2.2 with ⟨c2, j2, _, _, hadd, _⟩ | ⟨_, j2, hp, hadd, _⟩
        · exact ih acc1 out h j (hadd ▸ hj) hrest
        · refine ih acc1 out h j ?_ hrest
          rw [hadd]
          apply push_entry_mem_preserve _ _ _ hj
          rw [(hpre _ _ hp).1]
          exact hnames i0 (List.mem_cons_self _ _)

/-- Every non-absent desire without a current kernel match ends in the add
set as its cleaned-up clone (given distinct desired names). -/
theorem classify_ifaces_add_new (ops : VariantOps) (cur : Interfaces)
    (hpre : ∀ i j, ops.pre_edit_cleanup i = .ok j →
      j.name = i.name ∧ j.iface_type = i.iface_type) :
    ∀ l acc out, classify_ifaces ops cur l acc = .ok out →
      (l.map Interface.name).Nodup →
      ∀ iface ∈ l, iface.is_absent = false →
        kfind cur.kernel_ifaces iface.name = none →
          ∃ j, ops.pre_edit_cleanup iface = .ok j ∧ entry_mem j out.1 := by
  intro l
  induction l with
  | nil =>
    intro acc out h _ iface hif
    simp at hif
  | cons i0 rest ih =>
    intro acc out h hnodup iface hif hab hc
    rw [classify_ifaces] at h
    cases hs : classify_step ops cur acc i0 with
    | error e =>
      rw [hs] at h
      simp [bind, Except.bind] at h
    | ok acc1 =>
      rw [hs] at h
      simp only [bind, Except.bind] at h
      rcases List.mem_cons.mp hif with heq | htail
      · subst heq
        rcases classify_step_cases ops cur acc acc1 iface hs with h1 | h2
        · rw [h1.1] at hab
          exact absurd hab (by simp)
        · rcases h2.2.2 with ⟨c2, j, hc2, _, _, _⟩ | ⟨_, j, hp, hadd, _⟩
          · rw [hc] at hc2
            exact absurd hc2 (by simp)
          · refine ⟨j, hp, ?_⟩
            refine classify_ifaces_add_preserve ops cur hpre rest acc1 out h
              j ?_ ?_
            · rw [hadd]
              exact push_entry_mem_self _ _
            · intro i2 h2 hname
              have hjn := (hpre _ _ hp).1
              rw [hjn] at hname
              have : iface.name ∈ rest.map Interface.name :=
                hname ▸ List.mem_map_of_mem _ h2
              simp only [List.map_cons, List.nodup_cons] at hnodup
              exact hnodup.1 this
      · rcases classify_step_cases ops cur acc acc1 i0 hs with h1 | h2
        all_goals {
          refine ih acc1 out h ?_ iface htail hab hc
          simp only [List.map_cons, List.nodup_cons] at hnodup
          exact hnodup.2
        }

/-- The DHCP on→off rewrite only changes IP payloads: every record of its
output matches a record of its input by name and type. -/
theorem include_dhcp_iface_mem (chg cur : Interfaces) (e : Interface)
    (h : iface_mem e (include_current_ip_address_if_dhcp_on_to_off chg cur)) :
    ∃ e0, iface_mem e0 chg ∧ e.name = e0.name ∧
      e.iface_type = e0.iface_type := by
  unfold include_current_ip_address_if_dhcp_on_to_off at h
  unfold iface_mem at h
  dsimp only at h
  rcases h with h | h
  · rw [List.map_map] at h
    obtain ⟨kv0, hkv0, hkv02⟩ := List.mem_map.mp h
    refine ⟨kv0.2, Or.inl (List.mem_map.mpr ⟨kv0, hkv0, rfl⟩), ?_, ?_⟩ <;>
    · rw [← hkv02]
      cases hc : kfind cur.kernel_ifaces kv0.2.name <;>
        simp [hc, Function.comp, Interface.include_dhcp_addrs]
  · exact ⟨e, Or.inr h, rfl, rfl⟩

/-- The DHCP on→off rewrite preserves presence of any name and type. -/
theorem include_dhcp_has_name_type (chg cur : Interfaces) (nm : String)
    (ty : InterfaceType) (h : has_name_type chg nm ty) :
    has_name_type (include_current_ip_address_if_dhcp_on_to_off chg cur)
      nm ty := by
  obtain ⟨e, hmem, hnm, hty⟩ := h
  unfold iface_mem at hmem
  rcases hmem with hm | hm
  · obtain ⟨kv0, hkv0, hkv02⟩ := List.mem_map.mp hm
    refine ⟨(match kfind cur.kernel_ifaces kv0.2.name with
             | some c => kv0.2.include_dhcp_addrs c
             | none => kv0.2), ?_, ?_, ?_⟩
    · unfold include_current_ip_address_if_dhcp_on_to_off iface_mem
      dsimp only
      left
      rw [List.map_map]
      refine List.mem_map.mpr ⟨kv0, hkv0, ?_⟩
      cases hc : kfind cur.kernel_ifaces kv0.2.name <;>
        simp [hc, Function.comp]
    · cases hc : kfind cur.kernel_ifaces kv0.2.name <;>
        simp [hc, Interface.include_dhcp_addrs, hkv02 ▸ hnm]
    · cases hc : kfind cur.kernel_ifaces kv0.2.name <;>
        simp [hc, Interface.include_dhcp_addrs, hkv02 ▸ hty]
  · exact ⟨e, Or.inr hm, hnm, hty⟩

/-- C1: after preprocessing, every non-absent desired interface is
validated when up; one with a current kernel name match lands in the
change set typed by current, one without lands in the add set as its
cleaned-up clone; and every record of the emitted change set carries the
type of the current kernel interface of its name. -/
theorem gen_state_classification (ops : VariantOps) (s cur : Interfaces)
    (add chg del s2 : Interfaces)
    (hpre : ∀ i j, ops.pre_edit_cleanup i = .ok j →
      j.name = i.name ∧ j.iface_type = i.iface_type)
    (hgen : Interfaces.gen_state_for_apply ops s cur = .ok (add, chg, del))
    (hprep : prep_for_apply ops s cur = .ok s2)
    (hnames : (s2.to_vec.map Interface.name).Nodup) :
    (∀ iface ∈ s2.to_vec, iface.is_absent = false →
      iface.is_up = true → ops.validate iface = .ok ()) ∧
    (∀ iface ∈ s2.to_vec, iface.is_absent = false →
      (∀ c, kfind cur.kernel_ifaces iface.name = some c →
        has_name_type chg iface.name c.iface_type) ∧
      (kfind cur.kernel_ifaces iface.name = none →
        ∃ j, ops.pre_edit_cleanup iface = .ok j ∧ entry_mem j add)) ∧
    (∀ e, iface_mem e chg →
      ∃ c, kfind cur.kernel_ifaces e.name = some c ∧
        e.iface_type = c.iface_type) := by
  have hwfnew : ifaces_wf Interfaces.new := by
    constructor <;> intro kv hkv <;> simp [Interfaces.new] at hkv
  have htynew : ∀ e, iface_mem e Interfaces.new → ∃ c,
      kfind cur.kernel_ifaces e.name = some c ∧
      e.iface_type = c.iface_type := by
    intro e he
    rcases he with he | he <;> simp [Interfaces.new] at he
  unfold Interfaces.gen_state_for_apply at hgen
  rw [hprep] at hgen
  simp only [bind, Except.bind] at hgen
  cases hcl : classify_ifaces ops cur s2.to_vec
      (Interfaces.new, Interfaces.new, Interfaces.new) with
  | error e =>
    rw [hcl] at hgen
    simp [bind, Except.bind] at hgen
  | ok acc =>
    obtain ⟨add0, chg0, del0⟩ := acc
    rw [hcl] at hgen
    simp only [bind, Except.bind] at hgen
    injection hgen with h1
    injection h1 with hadd h2
    injection h2 with hchg hdel
    refine ⟨?_, ?_, ?_⟩
    · exact classify_ifaces_validate ops cur s2.to_vec _ _ hcl
    · intro iface hif hab
      constructor
      · intro c hc
        have h0 : has_name_type chg0 iface.name c.iface_type :=
          classify_ifaces_presence_new ops cur hpre s2.to_vec
            (Interfaces.new, Interfaces.new, Interfaces.new)
            (add0, chg0, del0) hcl hwfnew iface hif hab c hc
        rw [← hchg]
        exact include_dhcp_has_name_type chg0 cur iface.name c.iface_type h0
      · intro hc
        obtain ⟨j, hj1, hj2⟩ := classify_ifaces_add_new ops cur hpre
          s2.to_vec (Interfaces.new, Interfaces.new, Interfaces.new)
          (add0, chg0, del0) hcl hnames iface hif hab hc
        exact ⟨j, hj1, hadd ▸ hj2⟩
    · intro e he
      rw [← hchg] at he
      obtain ⟨e0, he0, hnm, hty⟩ := include_dhcp_iface_mem chg0 cur e he
      obtain ⟨c, hc1, hc2⟩ := (classify_ifaces_chg_inv ops cur hpre
        s2.to_vec (Interfaces.new, Interfaces.new, Interfaces.new)
        (add0, chg0, del0) hcl hwfnew htynew).2 e0 he0
      exact ⟨c, by rw [hnm]; exact hc1, by rw [hty]; exact hc2⟩

/-- C1 witness: desired up `eth0` with a current kernel `eth0` lands in
the change set with current's type authoritative, and is validated. -/
theorem gen_state_classification_witness :
    has_name_type
      { kernel_ifaces := [("eth0", { name := "eth0", iface_type := .ethernet })],
        user_ifaces := [], insert_order := [("eth0", .ethernet)] }
      "eth0" InterfaceType.ethernet ∧
    triv_ops.validate { name := "eth0", iface_type := .ethernet } = .ok () := by
  have hpre : ∀ i j, triv_ops.pre_edit_cleanup i = .ok j →
      j.name = i.name ∧ j.iface_type = i.iface_type := by
    intro i j h
    injection h with h1
    subst h1
    exact ⟨rfl, rfl⟩
  have h := gen_state_classification triv_ops
    (Interfaces.new.push { name := "eth0", iface_type := .ethernet })
    (Interfaces.new.push
      { name := "eth0", iface_type := .ethernet, mac_address := some "AA" })
    Interfaces.new
    { kernel_ifaces := [("eth0", { name := "eth0", iface_type := .ethernet })],
      user_ifaces := [], insert_order := [("eth0", .ethernet)] }
    Interfaces.new
    { kernel_ifaces := [("eth0", { name := "eth0", iface_type := .ethernet })],
      user_ifaces := [], insert_order := [("eth0", .ethernet)] }
    hpre (by rfl) (by rfl) (by decide)
  refine ⟨?_, ?_⟩
  · exact (h.2.1 { name := "eth0", iface_type := .ethernet } (by decide)
      (by decide)).1
      { name := "eth0", iface_type := .ethernet, mac_address := some "AA" }
      (by decide)
  · exact h.1 { name := "eth0", iface_type := .ethernet } (by decide)
      (by decide) (by decide)

/-- Every error of the VF existence walk is a `VerificationError`. -/
theorem verify_vfs_err (cur_ifaces : Interfaces) :
    ∀ vfs e, verify_vfs cur_ifaces vfs = .error e →
      e.kind = .verificationError := by
  intro vfs
  induction vfs with
  | nil =>
    intro e h
    simp [verify_vfs] at h
  | cons vf rest ih =>
    intro e h
    rw [verify_vfs] at h
    by_cases h1 : vf.iface_name.isEmpty
    · rw [if_pos h1] at h
      injection h with h2
      rw [← h2]
    · rw [if_neg h1] at h
      by_cases h2 : (cur_ifaces.get_iface vf.iface_name .ethernet).isNone
      · rw [if_pos h2] at h
        injection h with h3
        rw [← h3]
      · rw [if_neg h2] at h
        exact ih e h

/-- Every error of the SR-IOV verification is a `VerificationError`. -/
theorem verify_sriov_err (pf_name : String) (cur_ifaces : Interfaces)
    (e : NmstateError) (h : verify_sriov pf_name cur_ifaces = .error e) :
    e.kind = .verificationError := by
  unfold verify_sriov at h
  cases hg : cur_ifaces.get_iface pf_name .ethernet with
  | some cur_pf =>
    rw [hg] at h
    dsimp only at h
    by_cases ht : cur_pf.iface_type = InterfaceType.ethernet
    · rw [if_pos ht] at h
      cases hs : cur_pf.sr_iov with
      | some conf =>
        rw [hs] at h
        dsimp only at h
        cases hv : conf.vfs with
        | some vfs =>
          rw [hv] at h
          exact verify_vfs_err cur_ifaces vfs e h
        | none =>
          rw [hv] at h
          simp at h
      | none =>
        rw [hs] at h
        simp at h
    · rw [if_neg ht] at h
      injection h with h1
      rw [← h1]
  | none =>
    rw [hg] at h
    dsimp only at h
    injection h with h1
    rw [← h1]

/-- Every error of `verify_desire_absent_but_found_in_current` is a
`VerificationError`. -/
theorem verify_absent_err (des cur : Interface) (e : NmstateError)
    (h : verify_desire_absent_but_found_in_current des cur = .error e) :
    e.kind = .verificationError := by
  unfold verify_desire_absent_but_found_in_current at h
  by_cases h1 : cur.is_virtual
  · rw [if_pos h1] at h
    injection h with h2
    rw [← h2]
  · rw [if_neg h1] at h
    by_cases h2 : cur.is_up
    · rw [if_pos h2] at h
      injection h with h3
      rw [← h3]
    · rw [if_neg h2] at h
      exact absurd h (by simp)

/-- The desire walk of `Interfaces::verify` only emits
`VerificationError`s (given the per-variant verifier does). -/
theorem verify_go_err
    (vf : Interface → Interface → Except NmstateError Unit)
    (hvf : ∀ a b e, vf a b = .error e → e.kind = .verificationError)
    (cur_clone cur_ifaces : Interfaces) :
    ∀ l e, verify_go vf cur_clone cur_ifaces l = .error e →
      e.kind = .verificationError := by
  intro l
  induction l with
  | nil =>
    intro e h
    simp [verify_go] at h
  | cons iface rest ih =>
    intro e h
    rw [verify_go] at h
    by_cases hg : (iface.is_absent || (iface.is_virtual && iface.is_down)) = true
    · rw [if_pos hg] at h
      cases hl : cur_clone.get_iface iface.name iface.iface_type with
      | some cur_iface =>
        rw [hl] at h
        dsimp only at h
        cases hv : verify_desire_absent_but_found_in_current iface cur_iface with
        | error e2 =>
          rw [hv] at h
          simp only [bind, Except.bind] at h
          injection h with h1
          rw [← h1]
          exact verify_absent_err _ _ _ hv
        | ok u =>
          rw [hv] at h
          simp only [bind, Except.bind] at h
          exact ih e h
      | none =>
        rw [hl] at h
        dsimp only at h
        exact ih e h
    · rw [if_neg hg] at h
      cases hl : cur_clone.get_iface iface.name iface.iface_type with
      | some cur_iface =>
        rw [hl] at h
        dsimp only at h
        cases hv : vf iface cur_iface with
        | error e2 =>
          rw [hv] at h
          simp only [bind, Except.bind] at h
          injection h with h1
          rw [← h1]
          exact hvf _ _ _ hv
        | ok u =>
          rw [hv] at h
          simp only [bind, Except.bind] at h
          by_cases hsr : iface.sriov_is_enabled = true
          · rw [if_pos hsr] at h
            cases hs : verify_sriov iface.name cur_ifaces with
            | error e3 =>
              rw [hs] at h
              simp only [bind, Except.bind] at h
              injection h with h1
              rw [← h1]
              exact verify_sriov_err _ _ _ hs
            | ok u2 =>
              rw [hs] at h
              simp only [bind, Except.bind] at h
              exact ih e h
          · rw [if_neg hsr] at h
            simp only [bind, Except.bind] at h
            exact ih e h
      | none =>
        rw [hl] at h
        dsimp only at h
        injection h with h1
        rw [← h1]

/-- The desire walk succeeds exactly when every desired interface passes
its per-interface condition. -/
theorem verify_go_ok
    (vf : Interface → Interface → Except NmstateError Unit)
    (cur_clone cur_ifaces : Interfaces) :
    ∀ l, verify_go vf cur_clone cur_ifaces l = .ok () ↔
      ∀ iface ∈ l, verify_passes vf cur_clone cur_ifaces iface := by
  intro l
  induction l with
  | nil =>
    constructor
    · intro _ iface hif
      simp at hif
    · intro _
      rfl
  | cons iface rest ih =>
    rw [verify_go, List.forall_mem_cons, ← ih]
    by_cases hg : (iface.is_absent || (iface.is_virtual && iface.is_down)) = true
    · rw [if_pos hg]
      unfold verify_passes
      rw [if_pos hg]
      cases hl : cur_clone.get_iface iface.name iface.iface_type with
      | some cur_iface =>
        dsimp only
        cases hv : verify_desire_absent_but_found_in_current iface cur_iface with
        | error e2 =>
          simp only [bind, Except.bind]
          constructor
          · intro hfalse
            exact absurd hfalse (by simp)
          · intro ⟨hhead, _⟩
            have := hhead cur_iface rfl
            rw [hv] at this
            exact absurd this (by simp)
        | ok u =>
          cases u
          simp only [bind, Except.bind]
          constructor
          · intro hrest
            refine ⟨?_, hrest⟩
            intro c2 hc2
            injection hc2 with hc3
            rw [← hc3]
            exact hv
          · intro ⟨_, hrest⟩
            exact hrest
      | none =>
        dsimp only
        constructor
        · intro hrest
          refine ⟨?_, hrest⟩
          intro c2 hc2
          exact absurd hc2 (by simp)
        · intro ⟨_, hrest⟩
          exact hrest
    · rw [if_neg hg]
      unfold verify_passes
      rw [if_neg hg]
      cases hl : cur_clone.get_iface iface.name iface.iface_type with
      | some cur_iface =>
        dsimp only
        cases hv : vf iface cur_iface with
        | error e2 =>
          simp only [bind, Except.bind]
          constructor
          · intro hfalse
            exact absurd hfalse (by simp)
          · intro ⟨hhead, _⟩
            obtain ⟨c2, hc2, hvf2, _⟩ := hhead
            injection hc2 with hc3
            rw [← hc3] at hvf2
            rw [hv] at hvf2
            exact absurd hvf2 (by simp)
        | ok u =>
          cases u
          simp only [bind, Except.bind]
          by_cases hsr : iface.sriov_is_enabled = true
          · rw [if_pos hsr]
            cases hs : verify_sriov iface.name cur_ifaces with
            | error e3 =>
              simp only [bind, Except.bind]
              constructor
              · intro hfalse
                exact absurd hfalse (by simp)
              · intro ⟨hhead, _⟩
                obtain ⟨c2, hc2, _, hsr2⟩ := hhead
                exact absurd (hsr2 hsr) (by simp)
            | ok u2 =>
              cases u2
              simp only [bind, Except.bind]
              constructor
              · intro hrest
                refine ⟨⟨cur_iface, ?_, ?_, ?_⟩, hrest⟩
                · exact rfl
                · exact hv
                · exact fun _ => trivial
              · intro ⟨_, hrest⟩
                exact hrest
          · rw [if_neg hsr]
            simp only [bind, Except.bind]
            constructor
            · intro hrest
              exact ⟨⟨cur_iface, rfl, hv, fun hx => absurd hx hsr⟩, hrest⟩
            · intro ⟨_, hrest⟩
              exact hrest
      | none =>
        dsimp only
        constructor
        · intro hfalse
          exact absurd hfalse (by simp)
        · intro ⟨hhead, _⟩
          obtain ⟨c2, hc2, _, _⟩ := hhead
          exact absurd hc2 (by simp)

/-- C3 (amended): `Interfaces::verify` fails with `VerificationError`
exactly when some desired interface that is neither absent nor
virtual-and-down is missing from the normalised current, some absent or
virtual-and-down desire is still present as a virtual or as an up
non-virtual current interface, or the per-variant verifier (or the
SR-IOV check) reports a mismatch; an absent physical interface observed
as down verifies successfully. -/
theorem verify_spec (vf : Interface → Interface → Except NmstateError Unit)
    (s cur_ifaces : Interfaces)
    (hvf : ∀ a b e, vf a b = .error e → e.kind = .verificationError) :
    (∀ e, Interfaces.verify vf s cur_ifaces = .error e →
      e.kind = .verificationError) ∧
    (Interfaces.verify vf s cur_ifaces = .ok () ↔
      ∀ iface ∈ s.to_vec,
        verify_passes vf (cur_ifaces.remove_unknown_type_port) cur_ifaces
          iface) := by
  constructor
  · intro e h
    exact verify_go_err vf hvf _ _ _ e h
  · exact verify_go_ok vf _ _ s.to_vec

/-- C3 witness: an absent physical `eth0` observed as down in current
verifies successfully (and the success condition holds for it). -/
theorem verify_spec_witness :
    Interfaces.verify (fun _ _ => .ok ())
      (Interfaces.new.push
        { name := "eth0", iface_type := .ethernet, state := .absent })
      (Interfaces.new.push
        { name := "eth0", iface_type := .ethernet, state := .down }) =
      .ok () ∧
    verify_passes (fun _ _ => .ok ())
      ((Interfaces.new.push
        { name := "eth0", iface_type := .ethernet,
          state := .down }).remove_unknown_type_port)
      (Interfaces.new.push
        { name := "eth0", iface_type := .ethernet, state := .down })
      { name := "eth0", iface_type := .ethernet, state := .absent } := by
  have hvf : ∀ (a b : Interface) e,
      (fun (_ _ : Interface) => (.ok () : Except NmstateError Unit)) a b =
        .error e → e.kind = .verificationError := by
    intro a b e h
    exact absurd h (by simp)
  have h := (verify_spec (fun _ _ => .ok ())
    (Interfaces.new.push
      { name := "eth0", iface_type := .ethernet, state := .absent })
    (Interfaces.new.push
      { name := "eth0", iface_type := .ethernet, state := .down }) hvf).2
  refine ⟨by rfl, ?_⟩
  exact h.mp (by rfl)
    { name := "eth0", iface_type := .ethernet, state := .absent } (by decide)

/-- C3 counterexample: the claim as stated predicts a failure whenever a
non-absent desired interface is missing from current, but a
virtual-and-down desire missing from current verifies successfully. -/
theorem verify_counterexample :
    Interfaces.verify (fun _ _ => .ok ())
      (Interfaces.new.push
        { name := "v0", iface_type := .vlan, state := .down })
      Interfaces.new = .ok () ∧
    ({ name := "v0", iface_type := .vlan,
       state := .down } : Interface).is_absent = false ∧
    (Interfaces.new.remove_unknown_type_port).get_iface "v0" .vlan = none := by
  exact ⟨by rfl, by decide, by decide⟩

end Nmstate
